import Mathlib

/-!
# The generated LR parsing engine of gocc (`internal/parser/gen/golang/parser.go`)

A shallow embedding of the Go code held in the template `parserSrc`: the stack,
`Parser.Reset`, `Parser.PanicMode`, `Parser.Error`, `popNonRecoveryStates`,
`firstRecoveryState`, `newError` and the driver loop `Parser.Parse`.

Conventions of the embedding.

* Go slices are lists, the top of the stack is the last element.
* `int` is `Int`.  An index expression `xs[i]` that Go would abort on (negative
  or past the end) yields `Fault.crash`, as does every `panic(...)` call.
* The loops of `Parse`, `Error` and `PanicMode` that may run for ever take a
  fuel argument; exhausting it yields `Fault.fuel`.
* A `Scanner` is a token stream together with the number of `Scan` calls made.
* The tables `actionTab`, `gotoTab`, `productionsTable`, `followsets` and the
  token map are generated into other files; they are the fields of `Tables`.
-/

namespace Gocc

/-! ## Tokens, attributes, errors -/

/-- Modelled from the spec: the token type of the generated `token` package,
"Token: {type: terminal-symbol id, literal: byte sequence, position}".  The
field `Typ` is the Go field `Type`. -/
structure Token where
  Typ : Int
  Lit : String
  Pos : Nat
deriving DecidableEq

/-- Modelled from the spec: the record `parseError.Error` of the generated
`errors` package, "ParseError: {cause, offending token, popped error-symbol
list, expected-token-name list, failing stack-top state}", with the field names
the parser source uses.  The parameter is the type of the error symbols. -/
structure ParseError (α : Type) where
  Err : Option String
  ErrorToken : Token
  ErrorSymbols : List α
  ExpectedTokens : List String
  StackTop : Int

/-- The values an `Attrib` (Go `interface{}`) holds in this parser: `nil`, a
token pushed by a shift, the nonterminal name pushed by `PanicMode`, the error
record pushed by `Error`, or a value built by a reduce function. -/
inductive Attrib where
  | nil
  | tok (t : Token)
  | sym (s : String)
  | err (e : ParseError Attrib)
  | node (label : String) (kids : List Attrib)

/-- The reasons a run of the embedding yields no result. -/
inductive Fault where
  | crash (msg : String)
  | fuel
deriving DecidableEq

/-- Indexing a Go slice or array with an `int`: `none` where Go aborts. -/
def idx? {α : Type} (xs : List α) (i : Int) : Option α :=
  if i < 0 then none else xs[i.toNat]?

/-! ## Stack -/

/-- The type `stack`: two parallel slices. -/
structure stack where
  state : List Int
  attrib : List Attrib

namespace stack

/-- `newStack`: both slices empty. -/
def newStack : stack := { state := [], attrib := [] }

/-- `(s *stack) reset`. -/
def reset (_s : stack) : stack := { state := [], attrib := [] }

/-- `(s *stack) push`. -/
def push (s : stack) (st : Int) (a : Attrib) : stack :=
  { state := s.state ++ [st], attrib := s.attrib ++ [a] }

/-- `(s *stack) top`: aborts on an empty stack. -/
def top (s : stack) : Option Int := idx? s.state ((s.state.length : Int) - 1)

/-- `(s *stack) peek`. -/
def peek (s : stack) (pos : Int) : Option Int := idx? s.state pos

/-- `(s *stack) topIndex`. -/
def topIndex (s : stack) : Int := (s.state.length : Int) - 1

/-- `(s *stack) popN`: with `lo = len(state) - items` and `hi = len(state)` it
returns `attrib[lo:hi]` and truncates both slices to `lo`.  Go aborts when
`lo < 0`, when `lo > hi`, or when `hi` exceeds the attribute slice (its
length here: spare capacity is not modelled). -/
def popN (s : stack) (items : Int) : Option (List Attrib × stack) :=
  let lo : Int := (s.state.length : Int) - items
  let hi : Int := (s.state.length : Int)
  if 0 ≤ lo ∧ lo ≤ hi ∧ hi ≤ (s.attrib.length : Int) then
    some ((s.attrib.take hi.toNat).drop lo.toNat,
          { state := s.state.take lo.toNat, attrib := s.attrib.take lo.toNat })
  else none

end stack

/-! ## Tables, scanner, parser -/

/-- The value of an `action` interface: `accept`, `shift` or `reduce`;
a `nil` cell of the ACTION table is `none : Option action`. -/
inductive action where
  | accept
  | shift (s : Int)
  | reduce (p : Int)
deriving DecidableEq

/-- One row of `actionTab`: the fields `canRecover` and `actions` the parser
reads. -/
structure actionRow where
  canRecover : Bool
  actions : List (Option action)

/-- Modelled from the spec: an entry of `productionsTable`, "Production:
{nonterminal id, rhs length, reduce function(popped attributes) → (attribute,
optional semantic error)}", with the field names the parser source reads:
`Id` (the name of the nonterminal), `NTType` (its column in `gotoTab`),
`NumSymbols` and `ReduceFunc`. -/
structure ProdTabEntry where
  Id : String
  NTType : Int
  NumSymbols : Int
  ReduceFunc : List Attrib → Except String Attrib

/-- Modelled from the spec: an entry of `followsets`, "FollowSetEntry:
{nonterminal id, set of terminal literal strings}", with the field names the
parser source reads; the key set of the Go map `Terminals` is a list. -/
structure FollowSet where
  Nonterminal : String
  Terminals : List String

/-- The package-level tables the generated parser reads, which are generated
into other files: `actionTab`, `gotoTab`, `productionsTable`, `followsets`,
`token.TokMap.Id`, `token.TokMap.Type("error")` and `token.EOF`. -/
structure Tables where
  actionTab : List actionRow
  gotoTab : List (List Int)
  productionsTable : List ProdTabEntry
  followsets : List FollowSet
  tokId : Int → String
  errorType : Int
  EOF : Int

/-- The interface `Scanner`: the stream of tokens the successive `Scan` calls
return, and the number of calls made so far. -/
structure Scanner where
  toks : Nat → Token
  pos : Nat

/-- `Scan`: the next token and the advanced scanner. -/
def Scanner.Scan (sc : Scanner) : Token × Scanner :=
  (sc.toks sc.pos, { sc with pos := sc.pos + 1 })

/-- The type `Parser`.  The pointer `nextToken` is taken to be non-nil, which
is the case from the first `Scan` of `Parse` on. -/
structure Parser where
  stack : stack
  nextToken : Token
  pos : Int

/-- `(p *Parser) Reset`. -/
def Parser.Reset (p : Parser) : Parser :=
  { p with stack := (p.stack.reset).push 0 Attrib.nil }

/-- The expression `actionTab[p.stack.top()]`. -/
def topRow (T : Tables) (s : stack) : Option actionRow :=
  match s.top with
  | none => none
  | some st => idx? T.actionTab st

/-- The expression `actionTab[p.stack.top()].actions[typ]`: `none` where Go
aborts, `some none` for a `nil` cell. -/
def actionAt (T : Tables) (s : stack) (typ : Int) : Option (Option action) :=
  match topRow T s with
  | none => none
  | some row => idx? row.actions typ

/-- The loop `for t, action := range actions` of `Error` and `newError`: the
names of the columns from `t` on whose cell is not `nil`. -/
def expectedFrom (tokId : Int → String) : List (Option action) → Nat → List String
  | [], _ => []
  | a :: rest, t =>
    if a.isSome then tokId (t : Int) :: expectedFrom tokId rest (t + 1)
    else expectedFrom tokId rest (t + 1)

/-! ## Panic-mode recovery -/

/-- The inner loop of `PanicMode`, `for k, v := range gotoTab[state[i]]`, from
column `k` on: at the first `v != -1` it sets `validState` to the state `st`
and `NTSymbol` to `productionsTable[k].Id` and breaks.  The result is the pair
`(validState, NTSymbol)`; `none` where the index `k` is out of range. -/
def gotoScan (pt : List ProdTabEntry) (st : Int) :
    List Int → Nat → Int × String → Option (Int × String)
  | [], _, acc => some acc
  | v :: rest, k, acc =>
    if v ≠ -1 then (pt[k]?).map (fun e => (st, e.Id))
    else gotoScan pt st rest (k + 1) acc

/-- The outer loop of `PanicMode`, `for i := len(state) - 1; i >= 0; i--`, with
`n = i + 1` iterations left, entered with `validState = -1`, `NTSymbol = ""`.
The result is the stack and the final `(validState, NTSymbol)`. -/
def unwind (T : Tables) (s : stack) : Nat → Option (stack × Int × String)
  | 0 => some (s, -1, "")
  | i + 1 =>
    match s.state[i]? with
    | none => none
    | some st =>
      match idx? T.gotoTab st with
      | none => none
      | some row =>
        match gotoScan T.productionsTable st row 0 (-1, "") with
        | none => none
        | some (validState, NTSymbol) =>
          if validState ≠ -1 then
            match s.popN ((s.state.length : Int) - 1 - (i : Int)) with
            | none => none
            | some (_, s1) => some (s1.push validState (Attrib.sym NTSymbol), validState, NTSymbol)
          else unwind T s i

/-- The discard loop of `PanicMode` for the follow set `v`: it tests the
literal of `p.nextToken` (which the loop never assigns), and otherwise calls
`Scan`, stopping with `resume = false` when the scanned literal is empty. -/
def discard (v : FollowSet) (lit : String) : Nat → Scanner → Except Fault (Bool × Scanner)
  | 0, _ => Except.error Fault.fuel
  | f + 1, sc =>
    if lit ∈ v.Terminals then Except.ok (true, sc)
    else
      let r := sc.Scan
      if r.1.Lit.length = 0 then Except.ok (false, r.2)
      else discard v lit f r.2

/-- `(p *Parser) PanicMode`: the returned `resume`, the parser and the scanner
afterwards.  The follow-set loop runs the discard loop for the first entry
whose `Nonterminal` is `NTSymbol` and breaks.  The `fmt.Println` of the
literal is not modelled. -/
def Parser.PanicMode (T : Tables) (p : Parser) (sc : Scanner) (fuel : Nat) :
    Except Fault (Bool × Parser × Scanner) :=
  match unwind T p.stack p.stack.state.length with
  | none => Except.error (Fault.crash "index out of range")
  | some (s1, _, NTSymbol) =>
    match T.followsets.find? (fun v => v.Nonterminal == NTSymbol) with
    | none => Except.ok (false, { p with stack := s1 }, sc)
    | some v =>
      match discard v p.nextToken.Lit fuel sc with
      | Except.error e => Except.error e
      | Except.ok (resume, sc1) => Except.ok (resume, { p with stack := s1 }, sc1)

/-! ## Local recovery -/

/-- The loop of `firstRecoveryState`,
`for recoveryState > 0 && !canRecover`, on the current `recoveryState` and
`canRecover`. -/
def recoveryLoop (T : Tables) (s : stack) : Nat → Bool → Option (Int × Bool)
  | 0, c => some (0, c)
  | r + 1, c =>
    if c then some (((r + 1 : Nat) : Int), c)
    else
      match s.peek (r : Int) with
      | none => none
      | some st =>
        match idx? T.actionTab st with
        | none => none
        | some row => recoveryLoop T s r row.canRecover

/-- `(p *Parser) firstRecoveryState`. -/
def firstRecoveryState (T : Tables) (s : stack) : Option (Int × Bool) :=
  match topRow T s with
  | none => none
  | some row => recoveryLoop T s s.topIndex.toNat row.canRecover

/-- `(p *Parser) popNonRecoveryStates`: the removed attributes and the stack
afterwards. -/
def popNonRecoveryStates (T : Tables) (s : stack) : Option (List Attrib × stack) :=
  match firstRecoveryState T s with
  | none => none
  | some (rs, true) => s.popN (s.topIndex - rs)
  | some (_, false) => some ([], s)

/-- The scanning loop of `Error`,
`for !recovered && p.nextToken.Type != token.EOF`. -/
def errorLoop (T : Tables) : Nat → Parser → Scanner → Bool →
    Except Fault (Bool × Parser × Scanner)
  | 0, _, _, _ => Except.error Fault.fuel
  | f + 1, p, sc, recovered =>
    if !recovered && p.nextToken.Typ ≠ T.EOF then
      let r := sc.Scan
      let p1 : Parser := { p with nextToken := r.1 }
      match actionAt T p1.stack p1.nextToken.Typ with
      | none => Except.error (Fault.crash "index out of range")
      | some a => errorLoop T f p1 r.2 (if a.isSome then true else recovered)
    else Except.ok (recovered, p, sc)

/-- `(p *Parser) Error`: the returned `recovered` and `errorAttrib`, the parser
and the scanner afterwards. -/
def Parser.Error (T : Tables) (p : Parser) (err : Option String) (sc : Scanner) (fuel : Nat) :
    Except Fault (Bool × ParseError Attrib × Parser × Scanner) :=
  match popNonRecoveryStates T p.stack with
  | none => Except.error (Fault.crash "index out of range")
  | some (syms, s1) =>
    match topRow T s1 with
    | none => Except.error (Fault.crash "index out of range")
    | some row =>
      let errorAttrib : ParseError Attrib :=
        { Err := err, ErrorToken := p.nextToken, ErrorSymbols := syms,
          ExpectedTokens := expectedFrom T.tokId row.actions 0, StackTop := 0 }
      match idx? row.actions T.errorType with
      | none => Except.error (Fault.crash "index out of range")
      | some none => Except.ok (false, errorAttrib, { p with stack := s1 }, sc)
      | some (some (action.shift t)) =>
        let p2 : Parser := { p with stack := s1.push t (Attrib.err errorAttrib) }
        match actionAt T p2.stack p2.nextToken.Typ with
        | none => Except.error (Fault.crash "index out of range")
        | some a => 
          match errorLoop T fuel p2 sc a.isSome with
          | Except.error e => Except.error e
          | Except.ok (recovered, p3, sc3) => Except.ok (recovered, errorAttrib, p3, sc3)
      | some (some _) => Except.error (Fault.crash "interface conversion: action is not shift")

/-- `(p *Parser) newError`. -/
def newError (T : Tables) (p : Parser) (err : Option String) : Option (ParseError Attrib) :=
  match p.stack.top with
  | none => none
  | some st =>
    match idx? T.actionTab st with
    | none => none
    | some actRow =>
      some { Err := err, StackTop := st, ErrorToken := p.nextToken, ErrorSymbols := [],
             ExpectedTokens := expectedFrom T.tokId actRow.actions 0 }

/-! ## The driver loop -/

/-- The calls a pass of the driver loop makes, recorded for the statements
about which routine runs: a ghost of the embedding, not a value of the code. -/
inductive Event where
  | accept
  | shift (s : Int)
  | reduce (p : Int)
  | error (recovered : Bool)
  | panicMode (resume : Bool)
deriving DecidableEq

/-- What one pass of the loop of `Parse` leaves: the loop goes on (`next`), or
`Parse` returns `(res, err)` (`done`). -/
inductive StepOut where
  | next (p : Parser) (sc : Scanner) (ev : List Event)
  | done (res : Attrib) (err : Option (ParseError Attrib)) (p : Parser) (sc : Scanner)
      (ev : List Event)

/-- The `switch act := action.(type)` of `Parse`, for a non-nil action; the
`default` branch is unreachable, `action` having these three cases only.  The
events `ev` of the pass so far are extended. -/
def dispatch (T : Tables) (fuel : Nat) (act : action) (p : Parser) (sc : Scanner)
    (ev : List Event) : Except Fault StepOut :=
  match act with
  | action.accept =>
    match p.stack.popN 1 with
    | none => Except.error (Fault.crash "slice bounds out of range")
    | some (popped, s1) =>
      match popped[0]? with
      | none => Except.error (Fault.crash "index out of range")
      | some res => Except.ok (StepOut.done res none { p with stack := s1 } sc (ev ++ [Event.accept]))
  | action.shift t =>
    let r := sc.Scan
    Except.ok (StepOut.next { p with stack := p.stack.push t (Attrib.tok p.nextToken), nextToken := r.1 }
      r.2 (ev ++ [Event.shift t]))
  | action.reduce i =>
    match idx? T.productionsTable i with
    | none => Except.error (Fault.crash "index out of range")
    | some prod =>
      match p.stack.popN prod.NumSymbols with
      | none => Except.error (Fault.crash "slice bounds out of range")
      | some (popped, s1) =>
        match prod.ReduceFunc popped with
        | Except.error _ =>
          match Parser.PanicMode T { p with stack := s1 } sc fuel with
          | Except.error e => Except.error e
          | Except.ok (false, p2, sc2) =>
            match newError T p2 none with
            | none => Except.error (Fault.crash "index out of range")
            | some e => Except.ok (StepOut.done Attrib.nil (some e) p2 sc2
                (ev ++ [Event.reduce i, Event.panicMode false]))
          | Except.ok (true, p2, sc2) =>
            Except.ok (StepOut.next p2 sc2 (ev ++ [Event.reduce i, Event.panicMode true]))
        | Except.ok attrib =>
          match s1.top with
          | none => Except.error (Fault.crash "index out of range")
          | some st =>
            match idx? T.gotoTab st with
            | none => Except.error (Fault.crash "index out of range")
            | some row =>
              match idx? row prod.NTType with
              | none => Except.error (Fault.crash "index out of range")
              | some g => Except.ok (StepOut.next { p with stack := s1.push g attrib } sc
                  (ev ++ [Event.reduce i]))

/-- The part of a pass of the loop of `Parse` that follows a missing action:
`Error`, then `PanicMode` when it did not recover, then the second look-up. -/
def recover (T : Tables) (fuel : Nat) (p : Parser) (sc : Scanner) : Except Fault StepOut :=
  match Parser.Error T p none sc fuel with
  | Except.error e => Except.error e
  | Except.ok (true, _, p1, sc1) =>
    match actionAt T p1.stack p1.nextToken.Typ with
    | none => Except.error (Fault.crash "index out of range")
    | some none => Except.error (Fault.crash "Error recovery led to invalid action")
    | some (some act) => dispatch T fuel act p1 sc1 [Event.error true]
  | Except.ok (false, errAttrib, p1, sc1) =>
    match Parser.PanicMode T { p1 with nextToken := errAttrib.ErrorToken } sc1 fuel with
    | Except.error e => Except.error e
    | Except.ok (false, p2, sc2) =>
      match newError T p2 none with
      | none => Except.error (Fault.crash "index out of range")
      | some e => Except.ok (StepOut.done Attrib.nil (some e) p2 sc2
          [Event.error false, Event.panicMode false])
    | Except.ok (true, p2, sc2) =>
      match actionAt T p2.stack p2.nextToken.Typ with
      | none => Except.error (Fault.crash "index out of range")
      | some none => Except.error (Fault.crash "Error recovery led to invalid action")
      | some (some act) => dispatch T fuel act p2 sc2 [Event.error false, Event.panicMode true]

/-- One pass of the loop `for acc := false; !acc;` of `Parse`. -/
def step (T : Tables) (fuel : Nat) (p : Parser) (sc : Scanner) : Except Fault StepOut :=
  match actionAt T p.stack p.nextToken.Typ with
  | none => Except.error (Fault.crash "index out of range")
  | some none => recover T fuel p sc
  | some (some act) => dispatch T fuel act p sc []

/-- What a run of `Parse` leaves: the returned pair, the parser and scanner
afterwards and the events of the run. -/
structure ParseOut where
  res : Attrib
  err : Option (ParseError Attrib)
  parser : Parser
  scanner : Scanner
  trace : List Event

/-- The loop of `Parse`: `fuel` bounds the number of passes, and each pass
hands the remaining fuel to the loops of `Error` and `PanicMode`. -/
def parseLoop (T : Tables) : Nat → Parser → Scanner → List Event → Except Fault ParseOut
  | 0, _, _, _ => Except.error Fault.fuel
  | f + 1, p, sc, tr =>
    match step T f p sc with
    | Except.error e => Except.error e
    | Except.ok (StepOut.next p1 sc1 ev) => parseLoop T f p1 sc1 (tr ++ ev)
    | Except.ok (StepOut.done res err p1 sc1 ev) =>
      Except.ok { res := res, err := err, parser := p1, scanner := sc1, trace := tr ++ ev }

/-- The state `Parse` enters its loop with: `p.Reset()` and
`p.nextToken = scanner.Scan()`. -/
def parseInit (p : Parser) (sc : Scanner) : Parser × Scanner :=
  ({ p.Reset with nextToken := sc.Scan.1 }, sc.Scan.2)

/-- `(p *Parser) Parse`, with everything a run leaves. -/
def Parser.ParseRun (T : Tables) (p : Parser) (sc : Scanner) (fuel : Nat) : Except Fault ParseOut :=
  parseLoop T fuel (parseInit p sc).1 (parseInit p sc).2 []

/-- `(p *Parser) Parse`: the returned pair `(res, err)`. -/
def Parser.Parse (T : Tables) (p : Parser) (sc : Scanner) (fuel : Nat) :
    Except Fault (Attrib × Option (ParseError Attrib)) :=
  match Parser.ParseRun T p sc fuel with
  | Except.error e => Except.error e
  | Except.ok out => Except.ok (out.res, out.err)

/-- `NewParser`: a fresh stack, then `Reset`.  The lookahead, nil in Go until
the first `Scan`, is a token that is never read. -/
def NewParser : Parser :=
  Parser.Reset { stack := stack.newStack, nextToken := { Typ := 0, Lit := "", Pos := 0 }, pos := 0 }

/-! ## The tables of the scenario grammars

Token types are numbered as gocc numbers terminals: `INVALID = 0`, `$` (the
end of input) `= 1`, then the terminals of the grammar in order of appearance.
Production `0` is the augmented production `S' : S`, whose reduce function
returns its only attribute. -/

/-- The scanner that yields the tokens of `l` and then `eof` for ever. -/
def Scanner.ofList (l : List Token) (eof : Token) : Scanner :=
  { toks := fun i => l.getD i eof, pos := 0 }

/-- The reduce function gocc emits for the augmented production: `X[0]`. -/
def reduceAugmented (X : List Attrib) : Except String Attrib :=
  match X with
  | [] => Except.error "index out of range"
  | x :: _ => Except.ok x

/-- The token map of the grammar `S : "a" "b"`. -/
def tokIdAB (t : Int) : String :=
  if t = 0 then "INVALID" else if t = 1 then "$" else if t = 2 then "a"
  else if t = 3 then "b" else "unknown"

/-- The LR(1) tables of the grammar `S : "a" "b"`, with reduce function `f`
for that production and follow sets `fs`.  States: `0` initial, `1` after `S`
(accept on `$`), `2` after `a`, `3` after `a b` (reduce on `$`).  The grammar
has no `error` terminal, so `token.TokMap.Type("error")` is `INVALID`. -/
def tablesAB (f : List Attrib → Except String Attrib) (fs : List FollowSet) : Tables :=
  { actionTab :=
      [ { canRecover := false, actions := [none, none, some (action.shift 2), none] },
        { canRecover := false, actions := [none, some action.accept, none, none] },
        { canRecover := false, actions := [none, none, none, some (action.shift 3)] },
        { canRecover := false, actions := [none, some (action.reduce 1), none, none] } ],
    gotoTab := [[-1, 1], [-1, -1], [-1, -1], [-1, -1]],
    productionsTable :=
      [ { Id := "S'", NTType := 0, NumSymbols := 1, ReduceFunc := reduceAugmented },
        { Id := "S", NTType := 1, NumSymbols := 2, ReduceFunc := f } ],
    followsets := fs,
    tokId := tokIdAB,
    errorType := 0,
    EOF := 1 }

/-- The token map of the grammar `S : "a" error "b"`. -/
def tokIdAEB (t : Int) : String :=
  if t = 0 then "INVALID" else if t = 1 then "$" else if t = 2 then "a"
  else if t = 3 then "error" else if t = 4 then "b" else "unknown"

/-- The LR(1) tables of the grammar `S : "a" error "b"`, with reduce function
`f` for that production.  States: `0` initial, `1` after `S` (accept on `$`),
`2` after `a` (can recover, shift `3` on `error`), `3` after `a error` (shift
`4` on `b`), `4` after `a error b` (reduce on `$`). -/
def tablesAEB (f : List Attrib → Except String Attrib) (fs : List FollowSet) : Tables :=
  { actionTab :=
      [ { canRecover := false, actions := [none, none, some (action.shift 2), none, none] },
        { canRecover := false, actions := [none, some action.accept, none, none, none] },
        { canRecover := true, actions := [none, none, none, some (action.shift 3), none] },
        { canRecover := false, actions := [none, none, none, none, some (action.shift 4)] },
        { canRecover := false, actions := [none, some (action.reduce 1), none, none, none] } ],
    gotoTab := [[-1, 1], [-1, -1], [-1, -1], [-1, -1], [-1, -1]],
    productionsTable :=
      [ { Id := "S'", NTType := 0, NumSymbols := 1, ReduceFunc := reduceAugmented },
        { Id := "S", NTType := 1, NumSymbols := 3, ReduceFunc := f } ],
    followsets := fs,
    tokId := tokIdAEB,
    errorType := 3,
    EOF := 1 }

/-! ## Invariants and observable points -/

/-- The stack invariant: as many states as attributes. -/
def stack.balanced (s : stack) : Prop := s.state.length = s.attrib.length

/-- The parser a pass of the loop leaves. -/
def StepOut.parser : StepOut → Parser
  | StepOut.next p _ _ => p
  | StepOut.done _ _ p _ _ => p

/-- The states the loop of `Parse` is entered with during the run started from
parser `p0` and scanner `sc0`: the state after `Reset` and the first `Scan`,
and the state every pass that goes on leaves. -/
inductive LoopState (T : Tables) (p0 : Parser) (sc0 : Scanner) : Parser → Scanner → Prop where
  | init : LoopState T p0 sc0 (parseInit p0 sc0).1 (parseInit p0 sc0).2
  | pass {p p1 : Parser} {sc sc1 : Scanner} {ev : List Event} (fuel : Nat) :
      LoopState T p0 sc0 p sc → step T fuel p sc = Except.ok (StepOut.next p1 sc1 ev) →
      LoopState T p0 sc0 p1 sc1

/-- The observable points of the run of `Parse` started from `p0` and `sc0`:
the parser after the initial `Reset`, and the parser every completed pass of
the loop leaves, whether the loop goes on or `Parse` returns. -/
def Observable (T : Tables) (p0 : Parser) (sc0 : Scanner) (q : Parser) : Prop :=
  q = (parseInit p0 sc0).1 ∨
  ∃ (p : Parser) (sc : Scanner) (fuel : Nat) (r : StepOut),
    LoopState T p0 sc0 p sc ∧ step T fuel p sc = Except.ok r ∧ r.parser = q

/-- The first column from `k` on of a GOTO row whose entry is defined (is not
`-1`), in table order. -/
def firstGoto : List Int → Nat → Option Nat
  | [], _ => none
  | v :: rest, k => if v ≠ -1 then some k else firstGoto rest (k + 1)

/-- State `st` has a row in `gotoTab` with a defined entry. -/
def hasGoto (T : Tables) (st : Int) : Bool :=
  match idx? T.gotoTab st with
  | none => false
  | some row => row.any (fun v => v != -1)

/-- State `st` has a row in `gotoTab` and no entry of it is defined. -/
def noGoto (T : Tables) (st : Int) : Bool :=
  match idx? T.gotoTab st with
  | none => false
  | some row => row.all (fun v => v == -1)

/-- The error record `Error` builds in state `2` of `tablesAEB` for the
offending token `x`. -/
def errAEB (x : Token) : ParseError Attrib :=
  { Err := none, ErrorToken := x, ErrorSymbols := [], ExpectedTokens := ["error"], StackTop := 0 }

/-- A token that is neither `b` nor the end of input for `tablesAEB`, with a
type among the terminal ids of the tables. -/
def skippedAEB (x : Token) : Prop := 0 ≤ x.Typ ∧ x.Typ < 5 ∧ x.Typ ≠ 4 ∧ x.Typ ≠ 1

/-! ## Concrete inputs of the scenarios -/

/-- A reduce function that always succeeds: it builds a node over the popped
attributes. -/
def reduceNode (X : List Attrib) : Except String Attrib := Except.ok (Attrib.node "S" X)

/-- The token `a` (type `2` in both scenario grammars). -/
def tokA : Token := { Typ := 2, Lit := "a", Pos := 0 }

/-- The token `b` of the grammar `S : "a" "b"` (type `3`). -/
def tokB : Token := { Typ := 3, Lit := "b", Pos := 1 }

/-- The token `b` of the grammar `S : "a" error "b"` (type `4`). -/
def tokB4 : Token := { Typ := 4, Lit := "b", Pos := 2 }

/-- The token `c`, unknown to both grammars: its type is `INVALID`. -/
def tokC : Token := { Typ := 0, Lit := "c", Pos := 1 }

/-- A token whose type is that of the terminal `error` of the grammar
`S : "a" error "b"` (type `3`). -/
def tokE3 : Token := { Typ := 3, Lit := "e", Pos := 1 }

/-- The end-of-input token, with the empty literal gocc lexers give it. -/
def tokEOF : Token := { Typ := 1, Lit := "", Pos := 3 }

/-- The follow sets of the grammar `S : "a" "b"`, keyed by nonterminal name:
only the end of input follows `S`. -/
def followsAB : List FollowSet :=
  [ { Nonterminal := "S'", Terminals := ["$"] }, { Nonterminal := "S", Terminals := ["$"] } ]

/-- The ACTION table, productions and token map of `S : "a" "b"` with the GOTO
table `gt` in place of that of the grammar. -/
def tablesABGoto (gt : List (List Int)) (f : List Attrib → Except String Attrib)
    (fs : List FollowSet) : Tables :=
  { tablesAB f fs with gotoTab := gt }

/-- The tables of `S : "a" "b"` with every GOTO entry undefined: the tables
Scenario B describes ("no GOTO-bearing ancestor"), which differ from the
tables of the grammar in the entry `GOTO[0][S]`. -/
def tablesABNoGoto (f : List Attrib → Except String Attrib) (fs : List FollowSet) : Tables :=
  { tablesAB f fs with gotoTab := [[-1, -1], [-1, -1], [-1, -1], [-1, -1]] }

/-! ## Two grammars with a second nonterminal -/

/-- The token map of the grammar `S : "a" T "d" ; T : "c"`. -/
def tokIdATD (t : Int) : String :=
  if t = 0 then "INVALID" else if t = 1 then "$" else if t = 2 then "a"
  else if t = 3 then "d" else if t = 4 then "c" else "unknown"

/-- The LR(1) tables of the grammar `S : "a" T "d" ; T : "c"`, with reduce
functions `f` (of `S`) and `g` (of `T`).  Productions: `0` `S' : S`, `1`
`S : a T d`, `2` `T : c`; GOTO columns `S'`, `S`, `T`.  States: `0` initial,
`1` after `S` (accept), `2` after `a` (GOTO on `T` is `3`), `3` after `a T`,
`4` after `c` (reduce `2` on `d`), `5` after `a T d` (reduce `1` on `$`).
Follow sets: `$` follows `S`, `d` follows `T`. -/
def tablesATD (f g : List Attrib → Except String Attrib) : Tables :=
  { actionTab :=
      [ { canRecover := false, actions := [none, none, some (action.shift 2), none, none] },
        { canRecover := false, actions := [none, some action.accept, none, none, none] },
        { canRecover := false, actions := [none, none, none, none, some (action.shift 4)] },
        { canRecover := false, actions := [none, none, none, some (action.shift 5), none] },
        { canRecover := false, actions := [none, none, none, some (action.reduce 2), none] },
        { canRecover := false, actions := [none, some (action.reduce 1), none, none, none] } ],
    gotoTab := [[-1, 1, -1], [-1, -1, -1], [-1, -1, 3], [-1, -1, -1], [-1, -1, -1], [-1, -1, -1]],
    productionsTable :=
      [ { Id := "S'", NTType := 0, NumSymbols := 1, ReduceFunc := reduceAugmented },
        { Id := "S", NTType := 1, NumSymbols := 3, ReduceFunc := f },
        { Id := "T", NTType := 2, NumSymbols := 1, ReduceFunc := g } ],
    followsets :=
      [ { Nonterminal := "S'", Terminals := ["$"] }, { Nonterminal := "S", Terminals := ["$"] },
        { Nonterminal := "T", Terminals := ["d"] } ],
    tokId := tokIdATD,
    errorType := 0,
    EOF := 1 }

/-- The token map of the grammar `S : "a" T | "b" ; T : "c"`. -/
def tokIdATB (t : Int) : String :=
  if t = 0 then "INVALID" else if t = 1 then "$" else if t = 2 then "a"
  else if t = 3 then "b" else if t = 4 then "c" else "unknown"

/-- The LR(1) tables of the grammar `S : "a" T | "b" ; T : "c"`.
Productions: `0` `S' : S`, `1` `S : a T`, `2` `S : b`, `3` `T : c`; GOTO
columns `S'`, `S`, `T`.  States: `0` initial, `1` after `S` (accept), `2`
after `a` (GOTO on `T` is `4`), `3` after `b`, `4` after `a T`, `5` after
`c`. -/
def tablesATB (f g h : List Attrib → Except String Attrib) : Tables :=
  { actionTab :=
      [ { canRecover := false,
          actions := [none, none, some (action.shift 2), some (action.shift 3), none] },
        { canRecover := false, actions := [none, some action.accept, none, none, none] },
        { canRecover := false, actions := [none, none, none, none, some (action.shift 5)] },
        { canRecover := false, actions := [none, some (action.reduce 2), none, none, none] },
        { canRecover := false, actions := [none, some (action.reduce 1), none, none, none] },
        { canRecover := false, actions := [none, some (action.reduce 3), none, none, none] } ],
    gotoTab := [[-1, 1, -1], [-1, -1, -1], [-1, -1, 4], [-1, -1, -1], [-1, -1, -1], [-1, -1, -1]],
    productionsTable :=
      [ { Id := "S'", NTType := 0, NumSymbols := 1, ReduceFunc := reduceAugmented },
        { Id := "S", NTType := 1, NumSymbols := 2, ReduceFunc := f },
        { Id := "S", NTType := 1, NumSymbols := 1, ReduceFunc := g },
        { Id := "T", NTType := 2, NumSymbols := 1, ReduceFunc := h } ],
    followsets :=
      [ { Nonterminal := "S'", Terminals := ["$"] }, { Nonterminal := "S", Terminals := ["$"] },
        { Nonterminal := "T", Terminals := ["$"] } ],
    tokId := tokIdATB,
    errorType := 0,
    EOF := 1 }

/-- The name of the nonterminal of GOTO column `k`: the `Id` of the
productions whose `NTType` is `k`. -/
def ntName (T : Tables) (k : Int) : Option String :=
  (T.productionsTable.find? (fun e => e.NTType == k)).map (fun e => e.Id)

/-- The GOTO column of the nonterminal named `A`. -/
def ntColumn (T : Tables) (A : String) : Option Int :=
  (T.productionsTable.find? (fun e => e.Id == A)).map (fun e => e.NTType)

/-- A token unknown to the grammar: its type is `INVALID`. -/
def tokX : Token := { Typ := 0, Lit := "x", Pos := 1 }

/-- The token `d` of the grammar `S : "a" T "d" ; T : "c"` (type `3`). -/
def tokD : Token := { Typ := 3, Lit := "d", Pos := 2 }

/-- The parser after `a` has been shifted: states `0`, `2`, lookahead `x`. -/
def parserAfterA (x : Token) : Parser :=
  { stack := { state := [0, 2], attrib := [Attrib.nil, Attrib.tok tokA] }, nextToken := x,
    pos := 0 }

/-- The bottom frame of the stack holds state `0`; in particular the stack is
not empty. -/
def stack.grounded (s : stack) : Prop := s.state.head? = some 0

/-- The ACTION row of state `0` holds no `accept`. -/
def noAcceptAtStart (T : Tables) : Prop :=
  ∀ row, idx? T.actionTab 0 = some row → some action.accept ∉ row.actions

/-- No follow set is keyed by the empty name. -/
def followsNamed (T : Tables) : Prop := ∀ v ∈ T.followsets, v.Nonterminal ≠ ""

/-- The tables of `S : "a" "b"` with the cell `ACTION[0][$]` set to `accept`:
tables no grammar yields. -/
def tablesAcceptAtStart : Tables :=
  { tablesAB reduceNode followsAB with
    actionTab :=
      [ { canRecover := false, actions := [none, some action.accept, some (action.shift 2), none] },
        { canRecover := false, actions := [none, some action.accept, none, none] },
        { canRecover := false, actions := [none, none, none, some (action.shift 3)] },
        { canRecover := false, actions := [none, some (action.reduce 1), none, none] } ] }

/-- A reduce function that always reports a semantic error. -/
def reduceFail (_X : List Attrib) : Except String Attrib := Except.error "semantic error"

/-- The tables of `S : "a" "b"` with the length of production `1` set to `3`
(the whole stack at the time it is reduced), a failing reduce function and a
follow set keyed by the empty name that holds the empty literal: tables no
grammar yields. -/
def tablesPopAll : Tables :=
  { tablesAB reduceFail [{ Nonterminal := "", Terminals := [""] }] with
    productionsTable :=
      [ { Id := "S'", NTType := 0, NumSymbols := 1, ReduceFunc := reduceAugmented },
        { Id := "S", NTType := 1, NumSymbols := 3, ReduceFunc := reduceFail } ] }

/-- Pushing the frames of `fs` in order, the first one first. -/
def stack.pushAll (s : stack) (fs : List (Int × Attrib)) : stack :=
  fs.foldl (fun acc f => acc.push f.1 f.2) s

/-- The parser `p` with its field `pos`, which no function of the parser
reads, set to `k`. -/
def Parser.setPos (p : Parser) (k : Int) : Parser := { p with pos := k }

/-- The result of a pass with the field `pos` of its parser set to `k`. -/
def StepOut.setPos (r : StepOut) (k : Int) : StepOut :=
  match r with
  | StepOut.next p sc ev => StepOut.next (p.setPos k) sc ev
  | StepOut.done res err p sc ev => StepOut.done res err (p.setPos k) sc ev

/-- An end-of-input token (type `token.EOF`) whose literal is not empty, as a
scanner other than a gocc lexer may return it. -/
def tokEOFDollar : Token := { Typ := 1, Lit := "$", Pos := 0 }

/-- The scanner that returns `tokEOFDollar` on every call. -/
def scannerEOFDollar : Scanner := { toks := fun _ => tokEOFDollar, pos := 0 }

/-- State `st` has a row in `actionTab` and is flagged can-recover. -/
def flagged (T : Tables) (st : Int) : Bool :=
  match idx? T.actionTab st with
  | none => false
  | some row => row.canRecover

/-- State `st` has a row in `actionTab` and is not flagged can-recover. -/
def unflagged (T : Tables) (st : Int) : Bool :=
  match idx? T.actionTab st with
  | none => false
  | some row => !row.canRecover

/-- The value `PanicMode` returns when its discard loop ends: whether the
first follow set named `A` exists and holds the literal `lit`. -/
def panicVerdict (T : Tables) (A : String) (lit : String) : Bool :=
  match T.followsets.find? (fun v => v.Nonterminal == A) with
  | none => false
  | some v => decide (lit ∈ v.Terminals)

/-! # Theorems -/

/-! ## The stack length invariant -/

theorem stack.push_balanced (s : stack) (st : Int) (a : Attrib) (h : s.balanced) :
    (s.push st a).balanced := by
  simp [stack.balanced, stack.push] at *
  exact h

theorem stack.popN_balanced (s s1 : stack) (k : Int) (popped : List Attrib) (h : s.balanced)
    (hp : s.popN k = some (popped, s1)) : s1.balanced := by
  unfold stack.popN at hp
  simp only at hp
  split at hp
  · simp only [Option.some.injEq, Prod.mk.injEq] at hp
    obtain ⟨-, rfl⟩ := hp
    simp [stack.balanced] at *
    omega
  · exact absurd hp (by simp)

theorem stack.popN_some (s : stack) (k : Int) (h : s.balanced) (h0 : 0 ≤ k)
    (hk : k ≤ (s.state.length : Int)) : ∃ r, s.popN k = some r := by
  unfold stack.popN
  simp only
  rw [if_pos]
  · exact ⟨_, rfl⟩
  · simp [stack.balanced] at h
    omega

theorem unwind_balanced (T : Tables) (s : stack) (h : s.balanced) :
    ∀ (n : Nat) (r : stack × Int × String), unwind T s n = some r → r.1.balanced := by
  intro n
  induction n with
  | zero =>
    intro r hr
    simp [unwind] at hr
    subst hr
    exact h
  | succ i ih =>
    intro r hr
    unfold unwind at hr
    split at hr
    · exact absurd hr (by simp)
    · split at hr
      · exact absurd hr (by simp)
      · split at hr
        · exact absurd hr (by simp)
        · split at hr
          · split at hr
            · exact absurd hr (by simp)
            · rename_i popped s1 hpop
              simp only [Option.some.injEq] at hr
              subst hr
              exact stack.push_balanced _ _ _ (stack.popN_balanced _ _ _ _ h hpop)
          · exact ih r hr

theorem PanicMode_balanced (T : Tables) (p : Parser) (sc : Scanner) (fuel : Nat)
    (r : Bool × Parser × Scanner) (h : p.stack.balanced)
    (hr : Parser.PanicMode T p sc fuel = Except.ok r) : r.2.1.stack.balanced := by
  unfold Parser.PanicMode at hr
  split at hr
  · exact absurd hr (by simp)
  · rename_i s1 vs nt hu
    have hb := unwind_balanced T p.stack h _ _ hu
    split at hr
    · simp only [Except.ok.injEq] at hr
      subst hr
      exact hb
    · split at hr
      · exact absurd hr (by simp)
      · simp only [Except.ok.injEq] at hr
        subst hr
        exact hb

theorem popNonRecoveryStates_balanced (T : Tables) (s s1 : stack) (syms : List Attrib)
    (h : s.balanced) (hp : popNonRecoveryStates T s = some (syms, s1)) : s1.balanced := by
  unfold popNonRecoveryStates at hp
  split at hp
  · exact absurd hp (by simp)
  · exact stack.popN_balanced _ _ _ _ h hp
  · simp only [Option.some.injEq, Prod.mk.injEq] at hp
    obtain ⟨-, rfl⟩ := hp
    exact h

theorem errorLoop_stack (T : Tables) :
    ∀ (fuel : Nat) (p : Parser) (sc : Scanner) (b : Bool) (r : Bool × Parser × Scanner),
      errorLoop T fuel p sc b = Except.ok r → r.2.1.stack = p.stack := by
  intro fuel
  induction fuel with
  | zero =>
    intro p sc b r hr
    simp [errorLoop] at hr
  | succ f ih =>
    intro p sc b r hr
    unfold errorLoop at hr
    split at hr
    · simp only at hr
      split at hr
      · exact absurd hr (by simp)
      · have := ih _ _ _ _ hr
        simpa using this
    · simp only [Except.ok.injEq] at hr
      subst hr
      rfl

theorem Error_balanced (T : Tables) (p : Parser) (err : Option String) (sc : Scanner) (fuel : Nat)
    (r : Bool × ParseError Attrib × Parser × Scanner) (h : p.stack.balanced)
    (hr : Parser.Error T p err sc fuel = Except.ok r) : r.2.2.1.stack.balanced := by
  unfold Parser.Error at hr
  split at hr
  · exact absurd hr (by simp)
  · rename_i syms s1 hpop
    have hb := popNonRecoveryStates_balanced T _ _ _ h hpop
    split at hr
    · exact absurd hr (by simp)
    · simp only at hr
      split at hr
      · exact absurd hr (by simp)
      · simp only [Except.ok.injEq] at hr
        subst hr
        exact hb
      · split at hr
        · exact absurd hr (by simp)
        · split at hr
          · exact absurd hr (by simp)
          · rename_i rec p3 sc3 hloop
            simp only [Except.ok.injEq] at hr
            subst hr
            have := errorLoop_stack T _ _ _ _ _ hloop
            simp only at this ⊢
            rw [this]
            exact stack.push_balanced _ _ _ hb
      · exact absurd hr (by simp)

theorem dispatch_balanced (T : Tables) (fuel : Nat) (act : action) (p : Parser) (sc : Scanner)
    (ev : List Event) (r : StepOut) (h : p.stack.balanced)
    (hr : dispatch T fuel act p sc ev = Except.ok r) : r.parser.stack.balanced := by
  unfold dispatch at hr
  split at hr
  · split at hr
    · exact absurd hr (by simp)
    · rename_i popped s1 hpop
      split at hr
      · exact absurd hr (by simp)
      · simp only [Except.ok.injEq] at hr
        subst hr
        exact stack.popN_balanced _ _ _ _ h hpop
  · simp only [Except.ok.injEq] at hr
    subst hr
    exact stack.push_balanced _ _ _ h
  · split at hr
    · exact absurd hr (by simp)
    · split at hr
      · exact absurd hr (by simp)
      · rename_i popped s1 hpop
        have hb := stack.popN_balanced _ _ _ _ h hpop
        split at hr
        · split at hr
          · exact absurd hr (by simp)
          · rename_i p2 sc2 hpm
            have hb2 := PanicMode_balanced T _ _ _ _ hb hpm
            split at hr
            · exact absurd hr (by simp)
            · simp only [Except.ok.injEq] at hr
              subst hr
              exact hb2
          · rename_i p2 sc2 hpm
            have hb2 := PanicMode_balanced T _ _ _ _ hb hpm
            simp only [Except.ok.injEq] at hr
            subst hr
            exact hb2
        · split at hr
          · exact absurd hr (by simp)
          · split at hr
            · exact absurd hr (by simp)
            · split at hr
              · exact absurd hr (by simp)
              · simp only [Except.ok.injEq] at hr
                subst hr
                exact stack.push_balanced _ _ _ hb

theorem recover_balanced (T : Tables) (fuel : Nat) (p : Parser) (sc : Scanner)
    (r : StepOut) (h : p.stack.balanced)
    (hr : recover T fuel p sc = Except.ok r) : r.parser.stack.balanced := by
  unfold recover at hr
  split at hr
  · exact absurd hr (by simp)
  · rename_i ea p1 sc1 herr
    have hb := Error_balanced T _ _ _ _ _ h herr
    split at hr
    · exact absurd hr (by simp)
    · exact absurd hr (by simp)
    · exact dispatch_balanced T _ _ _ _ _ _ hb hr
  · rename_i ea p1 sc1 herr
    have hb := Error_balanced T _ _ _ _ _ h herr
    split at hr
    · exact absurd hr (by simp)
    · rename_i p2 sc2 hpm
      have hb2 := PanicMode_balanced T { p1 with nextToken := ea.ErrorToken } _ _ _ hb hpm
      split at hr
      · exact absurd hr (by simp)
      · simp only [Except.ok.injEq] at hr
        subst hr
        exact hb2
    · rename_i p2 sc2 hpm
      have hb2 := PanicMode_balanced T { p1 with nextToken := ea.ErrorToken } _ _ _ hb hpm
      split at hr
      · exact absurd hr (by simp)
      · exact absurd hr (by simp)
      · exact dispatch_balanced T _ _ _ _ _ _ hb2 hr

theorem step_balanced (T : Tables) (fuel : Nat) (p : Parser) (sc : Scanner)
    (r : StepOut) (h : p.stack.balanced)
    (hr : step T fuel p sc = Except.ok r) : r.parser.stack.balanced := by
  unfold step at hr
  split at hr
  · exact absurd hr (by simp)
  · exact recover_balanced T _ _ _ _ h hr
  · exact dispatch_balanced T _ _ _ _ _ _ h hr

theorem Reset_balanced (p : Parser) : p.Reset.stack.balanced := by
  simp [Parser.Reset, stack.balanced, stack.push, stack.reset]

theorem LoopState_balanced (T : Tables) (p0 : Parser) (sc0 : Scanner) (p : Parser) (sc : Scanner)
    (h : LoopState T p0 sc0 p sc) : p.stack.balanced := by
  induction h with
  | init => exact Reset_balanced p0
  | pass fuel _ hstep ih => exact step_balanced T fuel _ _ _ ih hstep

theorem Observable_balanced (T : Tables) (p0 : Parser) (sc0 : Scanner) (q : Parser)
    (h : Observable T p0 sc0 q) : q.stack.balanced := by
  rcases h with h | ⟨p, sc, fuel, r, hl, hs, rfl⟩
  · subst h
    exact Reset_balanced p0
  · exact step_balanced T fuel _ _ _ (LoopState_balanced T p0 sc0 p sc hl) hs

/-- C9.  Stack length invariant: the stack of `newStack` holds as many states
as attributes; `reset`, `push` and `popN k` for `k` up to the depth (which
then succeeds) keep it so; hence it holds after `Parser.Reset`, after `Error`,
after `PanicMode`, after every pass of the loop of `Parse` (shift, reduce,
accept, recovery) and so at every observable point of a run of `Parse`. -/
theorem stack_length_invariant (T : Tables) :
    stack.newStack.balanced ∧
    (∀ s : stack, s.balanced → s.reset.balanced) ∧
    (∀ (s : stack) (st : Int) (a : Attrib), s.balanced → (s.push st a).balanced) ∧
    (∀ (s : stack) (k : Nat), s.balanced → k ≤ s.state.length →
      ∃ popped s1, s.popN (k : Int) = some (popped, s1) ∧ s1.balanced) ∧
    (∀ p : Parser, p.Reset.stack.balanced) ∧
    (∀ (p : Parser) (err : Option String) (sc : Scanner) (fuel : Nat)
        (r : Bool × ParseError Attrib × Parser × Scanner),
      p.stack.balanced → Parser.Error T p err sc fuel = Except.ok r → r.2.2.1.stack.balanced) ∧
    (∀ (p : Parser) (sc : Scanner) (fuel : Nat) (r : Bool × Parser × Scanner),
      p.stack.balanced → Parser.PanicMode T p sc fuel = Except.ok r → r.2.1.stack.balanced) ∧
    (∀ (fuel : Nat) (p : Parser) (sc : Scanner) (r : StepOut),
      p.stack.balanced → step T fuel p sc = Except.ok r → r.parser.stack.balanced) ∧
    (∀ (p0 : Parser) (sc0 : Scanner) (q : Parser), Observable T p0 sc0 q → q.stack.balanced) := by
  refine ⟨rfl, fun _ _ => rfl, stack.push_balanced, ?_, Reset_balanced, ?_, ?_, ?_, ?_⟩
  · intro s k hb hk
    obtain ⟨⟨popped, s1⟩, hr⟩ := stack.popN_some s k hb (by omega) (by omega)
    exact ⟨popped, s1, hr, stack.popN_balanced _ _ _ _ hb hr⟩
  · intro p err sc fuel r hb hr
    exact Error_balanced T p err sc fuel r hb hr
  · intro p sc fuel r hb hr
    exact PanicMode_balanced T p sc fuel r hb hr
  · intro fuel p sc r hb hr
    exact step_balanced T fuel p sc r hb hr
  · intro p0 sc0 q h
    exact Observable_balanced T p0 sc0 q h

/-- Witness of C9: `push` on the balanced stack of `newStack`. -/
theorem stack_length_invariant_witness :
    stack.newStack.balanced ∧ (stack.newStack.push 0 Attrib.nil).balanced :=
  ⟨rfl, (stack_length_invariant (tablesAB reduceAugmented [])).2.2.1 stack.newStack 0 Attrib.nil rfl⟩

theorem expectedFrom_mem (tokId : Int → String) (name : String) :
    ∀ (acts : List (Option action)) (k : Nat),
      name ∈ expectedFrom tokId acts k ↔
        ∃ (t : Nat) (a : action), acts[t]? = some (some a) ∧ name = tokId ((k + t : Nat) : Int) := by
  intro acts
  induction acts with
  | nil => intro k; simp [expectedFrom]
  | cons x rest ih =>
    intro k
    unfold expectedFrom
    constructor
    · intro h
      split at h
      · rename_i hx
        rcases List.mem_cons.mp h with h | h
        · obtain ⟨a, ha⟩ := Option.isSome_iff_exists.mp hx
          exact ⟨0, a, by simp [ha], by simpa using h⟩
        · obtain ⟨t, a, h1, h2⟩ := (ih (k + 1)).mp h
          exact ⟨t + 1, a, by simpa using h1, by rw [h2]; congr 2; omega⟩
      · obtain ⟨t, a, h1, h2⟩ := (ih (k + 1)).mp h
        exact ⟨t + 1, a, by simpa using h1, by rw [h2]; congr 2; omega⟩
    · rintro ⟨t, a, h1, h2⟩
      cases t with
      | zero =>
        simp at h1
        subst h1
        simp [h2]
      | succ t =>
        have h3 : name ∈ expectedFrom tokId rest (k + 1) :=
          (ih (k + 1)).mpr ⟨t, a, by simpa using h1, by rw [h2]; congr 2; omega⟩
        split
        · exact List.mem_cons_of_mem _ h3
        · exact h3

theorem gotoScan_result (pt : List ProdTabEntry) (st : Int) (acc : Int × String) :
    ∀ (row : List Int) (k : Nat) (r : Int × String), gotoScan pt st row k acc = some r →
      r = acc ∨ r.1 = st := by
  intro row
  induction row with
  | nil =>
    intro k r h
    simp [gotoScan] at h
    exact Or.inl h.symm
  | cons v rest ih =>
    intro k r h
    unfold gotoScan at h
    split at h
    · cases hk : pt[k]? with
      | none => simp [hk] at h
      | some e =>
        simp [hk] at h
        subst h
        exact Or.inr rfl
    · exact ih _ _ h

theorem unwind_shape (T : Tables) (s : stack) :
    ∀ (n : Nat) (s1 : stack) (vs : Int) (nt : String), unwind T s n = some (s1, vs, nt) →
      (s1 = s ∧ vs = -1 ∧ nt = "") ∨
      ∃ (i : Nat) (row : List Int) (popped : List Attrib) (s0 : stack),
        i < n ∧ s.state[i]? = some vs ∧ idx? T.gotoTab vs = some row ∧
        gotoScan T.productionsTable vs row 0 (-1, "") = some (vs, nt) ∧ vs ≠ -1 ∧
        s.popN ((s.state.length : Int) - 1 - (i : Int)) = some (popped, s0) ∧
        s1 = s0.push vs (Attrib.sym nt) := by
  intro n
  induction n with
  | zero =>
    intro s1 vs nt h
    simp [unwind] at h
    obtain ⟨h1, h2, h3⟩ := h
    exact Or.inl ⟨h1.symm, h2.symm, h3.symm⟩
  | succ i ih =>
    intro s1 vs nt h
    unfold unwind at h
    split at h
    · exact absurd h (by simp)
    · rename_i st hst
      split at h
      · exact absurd h (by simp)
      · rename_i row hrow
        split at h
        · exact absurd h (by simp)
        · rename_i validState NTSymbol hscan
          split at h
          · rename_i hne
            split at h
            · exact absurd h (by simp)
            · rename_i popped s0 hpop
              simp only [Option.some.injEq, Prod.mk.injEq] at h
              obtain ⟨h1, h2, h3⟩ := h
              subst h2 h3
              have hv : validState = st := by
                rcases gotoScan_result _ _ _ _ _ _ hscan with hr | hr
                · simp only [Prod.mk.injEq] at hr
                  exact absurd hr.1 hne
                · exact hr
              subst hv
              exact Or.inr ⟨i, row, popped, s0, Nat.lt_succ_self i, hst, hrow, hscan, hne, hpop,
                h1.symm⟩
          · rcases ih _ _ _ h with h1 | ⟨j, row1, popped, s0, hj, h2⟩
            · exact Or.inl h1
            · exact Or.inr ⟨j, row1, popped, s0, Nat.lt_succ_of_lt hj, h2⟩

theorem gotoScan_eq (pt : List ProdTabEntry) (st : Int) (acc : Int × String) :
    ∀ (row : List Int) (k : Nat),
      gotoScan pt st row k acc =
        match firstGoto row k with
        | none => some acc
        | some j => (pt[j]?).map (fun e => (st, e.Id)) := by
  intro row
  induction row with
  | nil => intro k; simp [gotoScan, firstGoto]
  | cons v rest ih =>
    intro k
    unfold gotoScan firstGoto
    split
    · rfl
    · exact ih (k + 1)

theorem firstGoto_none_of_all (row : List Int) (h : row.all (fun v => v == -1) = true) :
    ∀ k, firstGoto row k = none := by
  induction row with
  | nil => intro k; rfl
  | cons v rest ih =>
    intro k
    simp only [List.all_cons, Bool.and_eq_true, beq_iff_eq] at h
    unfold firstGoto
    rw [if_neg (by simp [h.1])]
    exact ih h.2 (k + 1)

theorem firstGoto_some_of_any (row : List Int) (h : row.any (fun v => v != -1) = true) :
    ∀ k, ∃ j, firstGoto row k = some j ∧ k ≤ j ∧ j < k + row.length := by
  induction row with
  | nil => simp at h
  | cons v rest ih =>
    intro k
    unfold firstGoto
    by_cases hv : v = -1
    · rw [if_neg (by simp [hv])]
      simp only [List.any_cons, Bool.or_eq_true, bne_iff_ne, ne_eq] at h
      rcases h with h | h
      · exact absurd hv h
      · obtain ⟨j, h1, h2, h3⟩ := ih h (k + 1)
        exact ⟨j, h1, by omega, by simp only [List.length_cons]; omega⟩
    · rw [if_pos hv]
      exact ⟨k, rfl, le_refl _, by simp⟩

theorem firstGoto_spec (row : List Int) :
    ∀ (k j : Nat), firstGoto row k = some j →
      k ≤ j ∧ (∃ v, row[j - k]? = some v ∧ v ≠ -1) ∧
      ∀ c, c < j - k → row[c]? = some (-1) := by
  induction row with
  | nil => intro k j h; simp [firstGoto] at h
  | cons v rest ih =>
    intro k j h
    unfold firstGoto at h
    split at h
    · rename_i hv
      simp only [Option.some.injEq] at h
      subst h
      refine ⟨le_refl _, ⟨v, by simp, hv⟩, ?_⟩
      intro c hc
      omega
    · rename_i hv
      obtain ⟨h1, ⟨w, h2, h3⟩, h4⟩ := ih (k + 1) j h
      have e : j - k = (j - (k + 1)) + 1 := by omega
      refine ⟨by omega, ⟨w, by rw [e]; simpa using h2, h3⟩, ?_⟩
      intro c hc
      cases c with
      | zero =>
        have : v = -1 := by
          by_contra hne
          exact hv hne
        simp [this]
      | succ c =>
        have := h4 c (by omega)
        simpa using this

theorem unwind_none (T : Tables) (s : stack) :
    ∀ n, (∀ j st, j < n → s.state[j]? = some st → noGoto T st = true) → n ≤ s.state.length →
      unwind T s n = some (s, -1, "") := by
  intro n
  induction n with
  | zero => intro _ _; rfl
  | succ i ih =>
    intro h hn
    have hlt : i < s.state.length := by omega
    have hst : s.state[i]? = some s.state[i] := List.getElem?_eq_getElem hlt
    have hng := h i _ (Nat.lt_succ_self i) hst
    unfold noGoto at hng
    unfold unwind
    simp only [hst]
    split at hng
    · exact absurd hng (by simp)
    · rename_i row hrow
      rw [gotoScan_eq, firstGoto_none_of_all row hng 0]
      show (if (-1 : Int) ≠ -1 then _ else unwind T s i) = _
      rw [if_neg (by simp)]
      exact ih (fun j st hj hs => h j st (Nat.lt_succ_of_lt hj) hs) (by omega)

theorem unwind_found (T : Tables) (s : stack) (i : Nat) (st : Int) (row : List Int) (k : Nat)
    (e : ProdTabEntry) (hbal : s.balanced) (hst : s.state[i]? = some st)
    (hrow : idx? T.gotoTab st = some row) (hk : firstGoto row 0 = some k)
    (he : T.productionsTable[k]? = some e) :
    ∀ n, i < n → n ≤ s.state.length →
      (∀ j st1, i < j → j < n → s.state[j]? = some st1 → noGoto T st1 = true) →
      unwind T s n =
        some ({ state := s.state.take (i + 1) ++ [st],
                attrib := s.attrib.take (i + 1) ++ [Attrib.sym e.Id] }, st, e.Id) := by
  intro n
  induction n with
  | zero => intro h; omega
  | succ m ih =>
    intro him hn hno
    have hstnn : st ≠ -1 := by
      intro h
      subst h
      simp [idx?] at hrow
    by_cases hmi : m = i
    · subst hmi
      unfold unwind
      simp only [hst, hrow]
      rw [gotoScan_eq, hk]
      simp only [he, Option.map_some']
      rw [if_pos hstnn]
      have hb : s.state.length = s.attrib.length := hbal
      have hpop : s.popN ((s.state.length : Int) - 1 - (m : Int)) =
          some ((s.attrib.take s.state.length).drop (m + 1),
            { state := s.state.take (m + 1), attrib := s.attrib.take (m + 1) }) := by
        unfold stack.popN
        have e1 : (s.state.length : Int) - ((s.state.length : Int) - 1 - (m : Int)) = ((m + 1 : Nat) : Int) := by
          push_cast; omega
        simp only [e1, Int.toNat_ofNat]
        rw [if_pos]
        constructor
        · omega
        · constructor
          · omega
          · omega
      simp only [hpop, stack.push]
    · have hlt : m < s.state.length := by omega
      have hstm : s.state[m]? = some s.state[m] := List.getElem?_eq_getElem hlt
      have hng := hno m _ (by omega) (Nat.lt_succ_self m) hstm
      unfold noGoto at hng
      unfold unwind
      simp only [hstm]
      split at hng
      · exact absurd hng (by simp)
      · rename_i row1 hrow1
        rw [gotoScan_eq, firstGoto_none_of_all row1 hng 0]
        show (if (-1 : Int) ≠ -1 then _ else unwind T s m) = _
        rw [if_neg (by simp)]
        exact ih (by omega) (by omega)
          (fun j st1 h1 h2 h3 => hno j st1 h1 (Nat.lt_succ_of_lt h2) h3)

theorem scenarioA_run (f : List Attrib → Except String Attrib) (fs : List FollowSet)
    (toks : Nat → Token) (p : Parser) (r : Attrib) (n : Nat)
    (ha : (toks 0).Typ = 2) (hb : (toks 1).Typ = 3) (he : (toks 2).Typ = 1)
    (hf : f [Attrib.tok (toks 0), Attrib.tok (toks 1)] = Except.ok r) :
    Parser.ParseRun (tablesAB f fs) p { toks := toks, pos := 0 } (n + 4) =
      Except.ok { res := r, err := none,
                  parser := { stack := { state := [0], attrib := [Attrib.nil] },
                              nextToken := toks 2, pos := p.pos },
                  scanner := { toks := toks, pos := 3 },
                  trace := [Event.shift 2, Event.shift 3, Event.reduce 1, Event.accept] } := by
  simp [Parser.ParseRun, parseInit, parseLoop, step, actionAt, topRow, stack.top, idx?,
    Parser.Reset, stack.reset, stack.push, Scanner.Scan, tablesAB, ha, hb, he, dispatch,
    stack.popN, hf]

theorem skippedAEB_cases (x : Token) (h : skippedAEB x) : x.Typ = 0 ∨ x.Typ = 2 ∨ x.Typ = 3 := by
  unfold skippedAEB at h
  omega

theorem errorLoop_AEB (f : List Attrib → Except String Attrib) (fs : List FollowSet)
    (toks : Nat → Token) (st : stack) (hst : st.state = [0, 2, 3]) (pp : Int) :
    ∀ (m k extra : Nat), (∀ j, k ≤ j → j ≤ k + m → skippedAEB (toks j)) →
      (toks (k + m + 1)).Typ = 4 →
      errorLoop (tablesAEB f fs) (m + 2 + extra) { stack := st, nextToken := toks k, pos := pp }
          { toks := toks, pos := k + 1 } false =
        Except.ok (true, { stack := st, nextToken := toks (k + m + 1), pos := pp },
          { toks := toks, pos := k + m + 2 }) := by
  intro m
  induction m with
  | zero =>
    intro k extra hs hb
    have h1 := (hs k (le_refl _) (by omega)).2.2.2
    have e1 : 0 + 2 + extra = (extra + 1) + 1 := by omega
    have hb1 : (toks (k + 1)).Typ = 4 := hb
    rw [e1]
    simp [errorLoop, h1, tablesAEB, Scanner.Scan, actionAt, topRow, stack.top, hst, idx?, hb1]
  | succ m ih =>
    intro k extra hs hb
    have h1 := (hs k (le_refl _) (by omega)).2.2.2
    have h2 := skippedAEB_cases _ (hs (k + 1) (by omega) (by omega))
    have hb2 : (toks (k + 1 + m + 1)).Typ = 4 := by
      have : k + 1 + m + 1 = k + (m + 1) + 1 := by omega
      rw [this]; exact hb
    have ih2 := ih (k + 1) extra (fun j hj1 hj2 => hs j (by omega) (by omega)) hb2
    have e1 : m + 1 + 2 + extra = (m + 2 + extra) + 1 := by omega
    have e2 : k + (m + 1) + 1 = k + 1 + m + 1 := by omega
    have e3 : k + (m + 1) + 2 = k + 1 + m + 2 := by omega
    rw [e1, e2, e3, errorLoop]
    rcases h2 with h2 | h2 | h2 <;>
    simp [h1, tablesAEB, Scanner.Scan, actionAt, topRow, stack.top, hst, idx?, h2] <;>
    simpa [tablesAEB] using ih2

theorem Error_AEB (f : List Attrib → Except String Attrib) (fs : List FollowSet)
    (toks : Nat → Token) (a : Attrib) (pp : Int) (m extra : Nat)
    (hs : ∀ j, 1 ≤ j → j ≤ 1 + m → skippedAEB (toks j))
    (h1 : (toks 1).Typ ≠ 3) (hb : (toks (1 + m + 1)).Typ = 4) :
    Parser.Error (tablesAEB f fs)
        { stack := { state := [0, 2], attrib := [Attrib.nil, a] }, nextToken := toks 1, pos := pp }
        none { toks := toks, pos := 2 } (m + 2 + extra) =
      Except.ok (true, errAEB (toks 1),
        { stack := { state := [0, 2, 3], attrib := [Attrib.nil, a, Attrib.err (errAEB (toks 1))] },
          nextToken := toks (1 + m + 1), pos := pp },
        { toks := toks, pos := 1 + m + 2 }) := by
  have hl := errorLoop_AEB f fs toks
    { state := [0, 2, 3], attrib := [Attrib.nil, a, Attrib.err (errAEB (toks 1))] } rfl pp
    m 1 extra hs hb
  have hc := skippedAEB_cases _ (hs 1 (le_refl _) (by omega))
  have hE : expectedFrom tokIdAEB [none, none, none, some (action.shift 3), none] 0 = ["error"] := by
    simp [expectedFrom, tokIdAEB]
  unfold Parser.Error
  have hpop : popNonRecoveryStates (tablesAEB f fs) { state := [0, 2], attrib := [Attrib.nil, a] } =
      some ([], { state := [0, 2], attrib := [Attrib.nil, a] }) := by
    simp [popNonRecoveryStates, firstRecoveryState, topRow, stack.top, idx?, tablesAEB,
      stack.topIndex, recoveryLoop, stack.popN]
  simp only [hpop]
  have hrow : topRow (tablesAEB f fs) { state := [0, 2], attrib := [Attrib.nil, a] } =
      some { canRecover := true, actions := [none, none, none, some (action.shift 3), none] } := by
    simp [topRow, stack.top, idx?, tablesAEB]
  simp only [hrow]
  have hidx : idx? [none, none, none, some (action.shift 3), none] (tablesAEB f fs).errorType =
      some (some (action.shift 3)) := by
    simp [idx?, tablesAEB]
  simp only [hidx]
  have hT : (tablesAEB f fs).tokId = tokIdAEB := rfl
  rw [hT, hE]
  have hact : actionAt (tablesAEB f fs)
      (stack.push { state := [0, 2], attrib := [Attrib.nil, a] } 3
        (Attrib.err { Err := none, ErrorToken := toks 1, ErrorSymbols := [],
                      ExpectedTokens := ["error"], StackTop := 0 })) (toks 1).Typ = some none := by
    rcases hc with h | h | h
    · simp [actionAt, topRow, stack.top, stack.push, idx?, tablesAEB, h]
    · simp [actionAt, topRow, stack.top, stack.push, idx?, tablesAEB, h]
    · exact absurd h h1
  simp only [hact]
  simp only [stack.push, List.cons_append, List.nil_append, errAEB, Option.isSome_none] at hl ⊢
  rw [hl]

theorem scenarioC_run (f : List Attrib → Except String Attrib) (fs : List FollowSet)
    (toks : Nat → Token) (p : Parser) (r : Attrib) (m extra : Nat)
    (ha : (toks 0).Typ = 2)
    (hs : ∀ j, 1 ≤ j → j ≤ 1 + m → skippedAEB (toks j))
    (h1 : (toks 1).Typ ≠ 3) (hb : (toks (1 + m + 1)).Typ = 4) (he : (toks (1 + m + 2)).Typ = 1)
    (hf : f [Attrib.tok (toks 0), Attrib.err (errAEB (toks 1)), Attrib.tok (toks (1 + m + 1))] =
      Except.ok r) :
    Parser.ParseRun (tablesAEB f fs) p { toks := toks, pos := 0 } (m + 4 + extra) =
      Except.ok { res := r, err := none,
                  parser := { stack := { state := [0], attrib := [Attrib.nil] },
                              nextToken := toks (1 + m + 2), pos := p.pos },
                  scanner := { toks := toks, pos := 1 + m + 3 },
                  trace := [Event.shift 2, Event.error true, Event.shift 4, Event.reduce 1,
                    Event.accept] } := by
  have hE := Error_AEB f fs toks (Attrib.tok (toks 0)) p.pos m extra hs h1 hb
  have hc := skippedAEB_cases _ (hs 1 (le_refl _) (by omega))
  have e1 : m + 4 + extra = (m + 2 + extra) + 1 + 1 := by omega
  rw [e1]
  unfold Parser.ParseRun
  rw [parseLoop]
  have hstep1 : step (tablesAEB f fs) (m + 2 + extra + 1) (parseInit p { toks := toks, pos := 0 }).1
      (parseInit p { toks := toks, pos := 0 }).2 =
      Except.ok (StepOut.next
        { stack := { state := [0, 2], attrib := [Attrib.nil, Attrib.tok (toks 0)] },
          nextToken := toks 1, pos := p.pos } { toks := toks, pos := 2 } [Event.shift 2]) := by
    simp [step, parseInit, actionAt, topRow, stack.top, idx?, Parser.Reset, stack.reset,
      stack.push, Scanner.Scan, tablesAEB, ha, dispatch]
  simp only [hstep1]
  rw [parseLoop]
  have hact : actionAt (tablesAEB f fs) { state := [0, 2], attrib := [Attrib.nil, Attrib.tok (toks 0)] }
      (toks 1).Typ = some none := by
    rcases hc with h | h | h
    · simp [actionAt, topRow, stack.top, idx?, tablesAEB, h]
    · simp [actionAt, topRow, stack.top, idx?, tablesAEB, h]
    · exact absurd h h1
  have hstep2 : step (tablesAEB f fs) (m + 2 + extra)
      { stack := { state := [0, 2], attrib := [Attrib.nil, Attrib.tok (toks 0)] },
        nextToken := toks 1, pos := p.pos } { toks := toks, pos := 2 } =
      Except.ok (StepOut.next
        { stack := { state := [0, 2, 3, 4],
                     attrib := [Attrib.nil, Attrib.tok (toks 0), Attrib.err (errAEB (toks 1)),
                       Attrib.tok (toks (1 + m + 1))] },
          nextToken := toks (1 + m + 2), pos := p.pos } { toks := toks, pos := 1 + m + 3 }
        [Event.error true, Event.shift 4]) := by
    unfold step
    simp only [hact]
    unfold recover
    simp only [hE]
    simp [actionAt, topRow, stack.top, idx?, tablesAEB, hb, dispatch, stack.push, Scanner.Scan]
  simp only [hstep2]
  have e2 : m + 2 + extra = (m + extra) + 1 + 1 := by omega
  rw [e2]
  simp [parseLoop, step, actionAt, topRow, stack.top, idx?, tablesAEB, he, dispatch, stack.popN,
    hf, stack.push]

/-! ## Scenario A and Scenario C -/

/-- C1.  Well-formed input (Scenario A): with the tables of `S : "a" "b"`, on
a scanner yielding `a`, `b`, end of input, `Parse` returns, for every fuel of
at least four passes and whatever the parser held before, `(r, nil)` where `r`
is what the reduce function of `S : a b` returns on the two shifted tokens in
order; the run is shift, shift, reduce, accept, so neither `Error` nor
`PanicMode` is called. -/
theorem parse_scenarioA (f : List Attrib → Except String Attrib) (fs : List FollowSet)
    (toks : Nat → Token) (p : Parser) (r : Attrib) (n : Nat)
    (ha : (toks 0).Typ = 2) (hb : (toks 1).Typ = 3) (he : (toks 2).Typ = 1)
    (hf : f [Attrib.tok (toks 0), Attrib.tok (toks 1)] = Except.ok r) :
    Parser.Parse (tablesAB f fs) p { toks := toks, pos := 0 } (n + 4) = Except.ok (r, none) ∧
    ∃ out, Parser.ParseRun (tablesAB f fs) p { toks := toks, pos := 0 } (n + 4) = Except.ok out ∧
      out.trace = [Event.shift 2, Event.shift 3, Event.reduce 1, Event.accept] := by
  have h := scenarioA_run f fs toks p r n ha hb he hf
  refine ⟨?_, _, h, rfl⟩
  simp [Parser.Parse, h]

/-- Witness of C1: the input `a b $` with the node-building reduce function. -/
theorem parse_scenarioA_witness :
    Parser.Parse (tablesAB reduceNode []) NewParser (Scanner.ofList [tokA, tokB] tokEOF) 4 =
      Except.ok (Attrib.node "S" [Attrib.tok tokA, Attrib.tok tokB], none) :=
  (parse_scenarioA reduceNode [] (Scanner.ofList [tokA, tokB] tokEOF).toks NewParser
    (Attrib.node "S" [Attrib.tok tokA, Attrib.tok tokB]) 0 rfl rfl rfl rfl).1

theorem scenarioC_error_typed_run (n : Nat) :
    Parser.ParseRun (tablesAEB reduceNode []) NewParser
        (Scanner.ofList [tokA, tokE3, tokB4] tokEOF) (n + 5) =
      Except.ok { res := Attrib.node "S" [Attrib.tok tokA, Attrib.tok tokE3, Attrib.tok tokB4],
                  err := none,
                  parser := { stack := { state := [0], attrib := [Attrib.nil] },
                              nextToken := tokEOF, pos := 0 },
                  scanner := { toks := (Scanner.ofList [tokA, tokE3, tokB4] tokEOF).toks, pos := 4 },
                  trace := [Event.shift 2, Event.shift 3, Event.shift 4, Event.reduce 1,
                    Event.accept] } := by
  simp [Parser.ParseRun, parseInit, parseLoop, step, actionAt, topRow, stack.top, idx?,
    Parser.Reset, stack.reset, stack.push, Scanner.Scan, tablesAEB, dispatch, NewParser,
    stack.popN, Scanner.ofList, tokA, tokE3, tokB4, tokEOF, reduceNode, stack.newStack]

/-- C2, counterexample.  With the tables of `S : "a" error "b"` and the input
`a e b $` in which `e` is neither `b` nor the end of input but has the type of
the terminal `error`, no run of `Parse` enters local recovery and discards
`e`: `e` is shifted like any terminal and handed to the reduce function. -/
theorem scenarioC_error_typed_not_discarded :
    (∃ out, Parser.ParseRun (tablesAEB reduceNode []) NewParser
        (Scanner.ofList [tokA, tokE3, tokB4] tokEOF) 5 = Except.ok out ∧
      out.res = Attrib.node "S" [Attrib.tok tokA, Attrib.tok tokE3, Attrib.tok tokB4] ∧
      out.trace = [Event.shift 2, Event.shift 3, Event.shift 4, Event.reduce 1, Event.accept]) ∧
    ¬ ∃ fuel out, Parser.ParseRun (tablesAEB reduceNode []) NewParser
        (Scanner.ofList [tokA, tokE3, tokB4] tokEOF) fuel = Except.ok out ∧
      out.trace = [Event.shift 2, Event.error true, Event.shift 4, Event.reduce 1,
        Event.accept] := by
  refine ⟨⟨_, scenarioC_error_typed_run 0, rfl, rfl⟩, ?_⟩
  rintro ⟨fuel, out, h, ht⟩
  match fuel with
  | 0 | 1 | 2 | 3 | 4 =>
    simp [Parser.ParseRun, parseInit, parseLoop, step, actionAt, topRow, stack.top, idx?,
      Parser.Reset, stack.reset, stack.push, Scanner.Scan, tablesAEB, dispatch, NewParser,
      stack.popN, Scanner.ofList, tokA, tokE3, tokB4, tokEOF, reduceNode, stack.newStack] at h
  | n + 5 =>
    rw [scenarioC_error_typed_run n] at h
    simp only [Except.ok.injEq] at h
    subst h
    simp at ht

/-- C2, amended.  Local recoverability (Scenario C): with the tables of
`S : "a" error "b"`, for every input `a x1 .. xn b $` with `n >= 1` in which no
`xi` is `b` or the end of input and `x1` is not of the type of the terminal
`error`, `Parse` enters `Error` at `x1`, which shifts the error state with the
error record as attribute and discards `x1 .. xn`; `b` is shifted, and `Parse`
returns `(r, nil)`, `r` being what the reduce function returns on
`[a, error record, b]`. -/
theorem local_recovery_scenarioC (f : List Attrib → Except String Attrib) (fs : List FollowSet)
    (toks : Nat → Token) (p : Parser) (r : Attrib) (m extra : Nat)
    (ha : (toks 0).Typ = 2)
    (hs : ∀ j, 1 ≤ j → j ≤ 1 + m → skippedAEB (toks j))
    (h1 : (toks 1).Typ ≠ 3) (hb : (toks (1 + m + 1)).Typ = 4) (he : (toks (1 + m + 2)).Typ = 1)
    (hf : f [Attrib.tok (toks 0), Attrib.err (errAEB (toks 1)), Attrib.tok (toks (1 + m + 1))] =
      Except.ok r) :
    Parser.Parse (tablesAEB f fs) p { toks := toks, pos := 0 } (m + 4 + extra) =
      Except.ok (r, none) ∧
    ∃ out, Parser.ParseRun (tablesAEB f fs) p { toks := toks, pos := 0 } (m + 4 + extra) =
        Except.ok out ∧
      out.trace = [Event.shift 2, Event.error true, Event.shift 4, Event.reduce 1, Event.accept] ∧
      out.scanner.pos = 1 + m + 3 := by
  have h := scenarioC_run f fs toks p r m extra ha hs h1 hb he hf
  refine ⟨?_, _, h, rfl, rfl⟩
  simp [Parser.Parse, h]

/-- Witness of C2: the input `a c b $`. -/
theorem local_recovery_scenarioC_witness :
    Parser.Parse (tablesAEB reduceNode []) NewParser (Scanner.ofList [tokA, tokC, tokB4] tokEOF) 4 =
      Except.ok (Attrib.node "S" [Attrib.tok tokA, Attrib.err (errAEB tokC), Attrib.tok tokB4],
        none) :=
  (local_recovery_scenarioC reduceNode [] (Scanner.ofList [tokA, tokC, tokB4] tokEOF).toks
    NewParser (Attrib.node "S" [Attrib.tok tokA, Attrib.err (errAEB tokC), Attrib.tok tokB4]) 0 0
    rfl
    (fun j h1 h2 => by
      have : j = 1 := by omega
      subst this
      simp [skippedAEB, Scanner.ofList, tokC])
    (by decide) rfl rfl rfl).1

/-! ## Recovery exhaustion -/

theorem idx?_isSome_iff {α : Type} (xs : List α) (i : Int) :
    (idx? xs i).isSome = true ↔ 0 ≤ i ∧ i.toNat < xs.length := by
  unfold idx?
  split
  · rename_i h
    constructor
    · intro h1
      simp at h1
    · intro h1
      omega
  · rename_i h
    constructor
    · intro h1
      obtain ⟨a, ha⟩ := Option.isSome_iff_exists.mp h1
      obtain ⟨hlt, -⟩ := List.getElem?_eq_some_iff.mp ha
      exact ⟨by omega, hlt⟩
    · intro h1
      rw [List.getElem?_eq_getElem h1.2]
      rfl

theorem stack.top_push (s : stack) (st : Int) (a : Attrib) : (s.push st a).top = some st := by
  have e : ((s.state.length : Int) + 1 - 1).toNat = s.state.length := by omega
  simp [stack.top, stack.push, idx?, e]

theorem actionAt_topRow (T : Tables) (s : stack) (typ : Int) (a : Option action)
    (h : actionAt T s typ = some a) : ∃ row, topRow T s = some row := by
  unfold actionAt at h
  split at h
  · exact absurd h (by simp)
  · rename_i row hrow
    exact ⟨row, hrow⟩

theorem Error_spec (T : Tables) (p : Parser) (err : Option String) (sc : Scanner) (fuel : Nat)
    (b : Bool) (ea : ParseError Attrib) (p1 : Parser) (sc1 : Scanner)
    (h : Parser.Error T p err sc fuel = Except.ok (b, ea, p1, sc1)) :
    ea.ErrorToken = p.nextToken ∧ ∃ row, topRow T p1.stack = some row := by
  unfold Parser.Error at h
  split at h
  · exact absurd h (by simp)
  · rename_i syms s1 hpop
    split at h
    · exact absurd h (by simp)
    · rename_i row hrow
      simp only at h
      split at h
      · exact absurd h (by simp)
      · simp only [Except.ok.injEq, Prod.mk.injEq] at h
        obtain ⟨-, h2, h3, -⟩ := h
        subst h2 h3
        exact ⟨rfl, row, hrow⟩
      · rename_i t hsh
        split at h
        · exact absurd h (by simp)
        · rename_i a hact
          split at h
          · exact absurd h (by simp)
          · rename_i rec p3 sc3 hloop
            simp only [Except.ok.injEq, Prod.mk.injEq] at h
            obtain ⟨-, h2, h3, -⟩ := h
            subst h2 h3
            have hs := errorLoop_stack T _ _ _ _ _ hloop
            simp only at hs
            refine ⟨rfl, ?_⟩
            rw [hs]
            exact actionAt_topRow T _ _ _ hact
      · exact absurd h (by simp)

theorem PanicMode_spec (T : Tables) (p : Parser) (sc : Scanner) (fuel : Nat) (b : Bool)
    (p2 : Parser) (sc2 : Scanner) (hshape : T.actionTab.length = T.gotoTab.length)
    (hrow : ∃ row, topRow T p.stack = some row)
    (h : Parser.PanicMode T p sc fuel = Except.ok (b, p2, sc2)) :
    p2.nextToken = p.nextToken ∧ ∃ row, topRow T p2.stack = some row := by
  unfold Parser.PanicMode at h
  split at h
  · exact absurd h (by simp)
  · rename_i s1 vs nt hu
    have hs1 : ∃ row, topRow T s1 = some row := by
      rcases unwind_shape T _ _ _ _ _ hu with ⟨h1, -, -⟩ | ⟨i, row, popped, s0, -, -, hg, -, -, -, h1⟩
      · rw [h1]; exact hrow
      · subst h1
        unfold topRow
        rw [stack.top_push]
        have h1 : (idx? T.gotoTab vs).isSome = true := by simp [hg]
        have h2 := (idx?_isSome_iff _ _).mp h1
        have h3 : (idx? T.actionTab vs).isSome = true :=
          (idx?_isSome_iff _ _).mpr ⟨h2.1, by rw [hshape]; exact h2.2⟩
        obtain ⟨row2, hrow2⟩ := Option.isSome_iff_exists.mp h3
        exact ⟨row2, hrow2⟩
    split at h
    · simp only [Except.ok.injEq, Prod.mk.injEq] at h
      obtain ⟨-, h2, -⟩ := h
      subst h2
      exact ⟨rfl, hs1⟩
    · split at h
      · exact absurd h (by simp)
      · simp only [Except.ok.injEq, Prod.mk.injEq] at h
        obtain ⟨-, h2, -⟩ := h
        subst h2
        exact ⟨rfl, hs1⟩

theorem newError_spec (T : Tables) (p : Parser) (err : Option String)
    (hrow : ∃ row, topRow T p.stack = some row) :
    ∃ (e : ParseError Attrib) (st : Int) (row : actionRow),
      newError T p err = some e ∧ p.stack.top = some st ∧ idx? T.actionTab st = some row ∧
      e.StackTop = st ∧ e.ErrorToken = p.nextToken ∧
      e.ExpectedTokens = expectedFrom T.tokId row.actions 0 := by
  obtain ⟨row, hrow⟩ := hrow
  unfold topRow at hrow
  split at hrow
  · exact absurd hrow (by simp)
  · rename_i st hst
    refine ⟨{ Err := err, StackTop := st, ErrorToken := p.nextToken, ErrorSymbols := [],
              ExpectedTokens := expectedFrom T.tokId row.actions 0 }, st, row, ?_, hst, hrow,
            rfl, rfl, rfl⟩
    simp [newError, hst, hrow]

theorem exhaustion_step (T : Tables) (p : Parser) (sc : Scanner) (fuel : Nat)
    (ea : ParseError Attrib) (p1 : Parser) (sc1 : Scanner) (p2 : Parser) (sc2 : Scanner)
    (hshape : T.actionTab.length = T.gotoTab.length)
    (hact : actionAt T p.stack p.nextToken.Typ = some none)
    (herr : Parser.Error T p none sc fuel = Except.ok (false, ea, p1, sc1))
    (hpm : Parser.PanicMode T { p1 with nextToken := ea.ErrorToken } sc1 fuel =
      Except.ok (false, p2, sc2)) :
    ∃ (e : ParseError Attrib) (st : Int) (row : actionRow),
      step T fuel p sc = Except.ok (StepOut.done Attrib.nil (some e) p2 sc2
        [Event.error false, Event.panicMode false]) ∧
      p2.stack.top = some st ∧ idx? T.actionTab st = some row ∧
      e.StackTop = st ∧ e.ErrorToken = p.nextToken ∧
      ∀ name, name ∈ e.ExpectedTokens ↔
        ∃ (t : Nat) (a : action), row.actions[t]? = some (some a) ∧ name = T.tokId (t : Int) := by
  obtain ⟨hE1, hE2⟩ := Error_spec T p none sc fuel false ea p1 sc1 herr
  obtain ⟨hP1, hP2⟩ := PanicMode_spec T { p1 with nextToken := ea.ErrorToken } sc1 fuel false p2
    sc2 hshape hE2 hpm
  obtain ⟨e, st, row, h1, h2, h3, h4, h5, h6⟩ := newError_spec T p2 none hP2
  refine ⟨e, st, row, ?_, h2, h3, h4, ?_, ?_⟩
  · unfold step
    simp only [hact]
    unfold recover
    simp only [herr, hpm, h1]
  · rw [h5, hP1]
    exact hE1
  · intro name
    rw [h6, expectedFrom_mem]
    simp

theorem PanicMode_AB (f : List Attrib → Except String Attrib) (fs : List FollowSet)
    (toks : Nat → Token) (a : Attrib) (x : Token) (pp : Int) (n : Nat)
    (h2 : (toks 2).Lit = "")
    (hfs : ∀ v ∈ fs, v.Nonterminal = "S" → x.Lit ∉ v.Terminals) :
    ∃ sc2, Parser.PanicMode (tablesAB f fs)
        { stack := { state := [0, 2], attrib := [Attrib.nil, a] }, nextToken := x, pos := pp }
        { toks := toks, pos := 2 } (n + 1) =
      Except.ok (false,
        { stack := { state := [0, 0], attrib := [Attrib.nil, Attrib.sym "S"] }, nextToken := x,
          pos := pp }, sc2) := by
  have hu : unwind (tablesAB f fs) { state := [0, 2], attrib := [Attrib.nil, a] } 2 =
      some ({ state := [0, 0], attrib := [Attrib.nil, Attrib.sym "S"] }, 0, "S") := by
    simp [unwind, idx?, tablesAB, gotoScan, stack.popN, stack.push]
  unfold Parser.PanicMode
  simp only [List.length_cons, List.length_nil, Nat.zero_add, Nat.reduceAdd, hu]
  cases hfind : (tablesAB f fs).followsets.find? (fun v => v.Nonterminal == "S") with
  | none => exact ⟨_, rfl⟩
  | some v =>
    have hmem : v ∈ fs := List.mem_of_find?_eq_some hfind
    have hname : v.Nonterminal = "S" := by
      have := List.find?_some hfind
      simpa using this
    have hnot := hfs v hmem hname
    refine ⟨{ toks := toks, pos := 3 }, ?_⟩
    simp [discard, hnot, Scanner.Scan, h2]

theorem scenarioB_run (f : List Attrib → Except String Attrib) (fs : List FollowSet)
    (toks : Nat → Token) (p : Parser) (n : Nat)
    (ha : (toks 0).Typ = 2) (he : (toks 1).Typ = 1) (h2 : (toks 2).Lit = "")
    (hfs : ∀ v ∈ fs, v.Nonterminal = "S" → (toks 1).Lit ∉ v.Terminals) :
    ∃ sc2, Parser.ParseRun (tablesAB f fs) p { toks := toks, pos := 0 } (n + 3) =
      Except.ok { res := Attrib.nil,
                  err := some { Err := none, StackTop := 0, ErrorToken := toks 1,
                                ErrorSymbols := [], ExpectedTokens := ["a"] },
                  parser := { stack := { state := [0, 0], attrib := [Attrib.nil, Attrib.sym "S"] },
                              nextToken := toks 1, pos := p.pos },
                  scanner := sc2,
                  trace := [Event.shift 2, Event.error false, Event.panicMode false] } := by
  obtain ⟨sc2, hpm⟩ := PanicMode_AB f fs toks (Attrib.tok (toks 0)) (toks 1) p.pos n h2 hfs
  refine ⟨sc2, ?_⟩
  unfold Parser.ParseRun
  rw [parseLoop]
  have hstep1 : step (tablesAB f fs) (n + 2) (parseInit p { toks := toks, pos := 0 }).1
      (parseInit p { toks := toks, pos := 0 }).2 =
      Except.ok (StepOut.next
        { stack := { state := [0, 2], attrib := [Attrib.nil, Attrib.tok (toks 0)] },
          nextToken := toks 1, pos := p.pos } { toks := toks, pos := 2 } [Event.shift 2]) := by
    simp [step, parseInit, actionAt, topRow, stack.top, idx?, Parser.Reset, stack.reset,
      stack.push, Scanner.Scan, tablesAB, ha, dispatch]
  simp only [hstep1]
  rw [parseLoop]
  have hE : Parser.Error (tablesAB f fs)
      { stack := { state := [0, 2], attrib := [Attrib.nil, Attrib.tok (toks 0)] },
        nextToken := toks 1, pos := p.pos } none { toks := toks, pos := 2 } (n + 1) =
      Except.ok (false,
        { Err := none, ErrorToken := toks 1, ErrorSymbols := [], ExpectedTokens := ["b"],
          StackTop := 0 },
        { stack := { state := [0, 2], attrib := [Attrib.nil, Attrib.tok (toks 0)] },
          nextToken := toks 1, pos := p.pos }, { toks := toks, pos := 2 }) := by
    simp [Parser.Error, popNonRecoveryStates, firstRecoveryState, topRow, stack.top, idx?,
      tablesAB, stack.topIndex, recoveryLoop, stack.peek, expectedFrom, tokIdAB]
  have hstep2 : step (tablesAB f fs) (n + 1)
      { stack := { state := [0, 2], attrib := [Attrib.nil, Attrib.tok (toks 0)] },
        nextToken := toks 1, pos := p.pos } { toks := toks, pos := 2 } =
      Except.ok (StepOut.done Attrib.nil
        (some { Err := none, StackTop := 0, ErrorToken := toks 1, ErrorSymbols := [],
                ExpectedTokens := ["a"] })
        { stack := { state := [0, 0], attrib := [Attrib.nil, Attrib.sym "S"] },
          nextToken := toks 1, pos := p.pos } sc2 [Event.error false, Event.panicMode false]) := by
    have hact : actionAt (tablesAB f fs)
        { state := [0, 2], attrib := [Attrib.nil, Attrib.tok (toks 0)] } (toks 1).Typ =
        some none := by
      simp [actionAt, topRow, stack.top, idx?, tablesAB, he]
    unfold step
    simp only [hact]
    unfold recover
    simp only [hE, hpm]
    simp [newError, stack.top, idx?, tablesAB, expectedFrom, tokIdAB]
  simp only [hstep2, List.nil_append, List.singleton_append]

theorem PanicMode_result (T : Tables) (p : Parser) (sc : Scanner) (fuel : Nat)
    (r : stack × Int × String) (hu : unwind T p.stack p.stack.state.length = some r)
    (b : Bool) (p2 : Parser) (sc2 : Scanner)
    (h : Parser.PanicMode T p sc fuel = Except.ok (b, p2, sc2)) :
    p2 = { p with stack := r.1 } := by
  obtain ⟨s1, vs, nt⟩ := r
  unfold Parser.PanicMode at h
  simp only [hu] at h
  split at h
  · simp only [Except.ok.injEq, Prod.mk.injEq] at h
    exact h.2.1.symm
  · split at h
    · exact absurd h (by simp)
    · simp only [Except.ok.injEq, Prod.mk.injEq] at h
      exact h.2.1.symm

theorem unwind_AB_noGoto (gt : List (List Int)) (f : List Attrib → Except String Attrib)
    (fs : List FollowSet) (a : Attrib)
    (h0 : noGoto (tablesABGoto gt f fs) 0 = true) (h2 : noGoto (tablesABGoto gt f fs) 2 = true) :
    unwind (tablesABGoto gt f fs) { state := [0, 2], attrib := [Attrib.nil, a] } 2 =
      some ({ state := [0, 2], attrib := [Attrib.nil, a] }, -1, "") := by
  refine unwind_none (tablesABGoto gt f fs) { state := [0, 2], attrib := [Attrib.nil, a] } 2 ?_
    (le_refl _)
  intro j st hj hs
  match j, hj, hs with
  | 0, _, hs =>
    simp at hs
    subst hs
    exact h0
  | 1, _, hs =>
    simp at hs
    subst hs
    exact h2

theorem scenarioB_noGoto_run (gt : List (List Int)) (f : List Attrib → Except String Attrib)
    (fs : List FollowSet) (toks : Nat → Token) (p : Parser) (n : Nat) (p2 : Parser)
    (sc2 : Scanner)
    (ha : (toks 0).Typ = 2) (he : (toks 1).Typ = 1)
    (h0 : noGoto (tablesABGoto gt f fs) 0 = true) (h2 : noGoto (tablesABGoto gt f fs) 2 = true)
    (hpm : Parser.PanicMode (tablesABGoto gt f fs)
        { stack := { state := [0, 2], attrib := [Attrib.nil, Attrib.tok (toks 0)] },
          nextToken := toks 1, pos := p.pos } { toks := toks, pos := 2 } (n + 1) =
      Except.ok (false, p2, sc2)) :
    Parser.ParseRun (tablesABGoto gt f fs) p { toks := toks, pos := 0 } (n + 3) =
      Except.ok { res := Attrib.nil,
                  err := some { Err := none, StackTop := 2, ErrorToken := toks 1,
                                ErrorSymbols := [], ExpectedTokens := ["b"] },
                  parser := { stack := { state := [0, 2],
                                         attrib := [Attrib.nil, Attrib.tok (toks 0)] },
                              nextToken := toks 1, pos := p.pos },
                  scanner := sc2,
                  trace := [Event.shift 2, Event.error false, Event.panicMode false] } := by
  have hp2 := PanicMode_result _ _ _ _ _
    (unwind_AB_noGoto gt f fs (Attrib.tok (toks 0)) h0 h2) _ _ _ hpm
  simp only at hp2
  subst hp2
  unfold Parser.ParseRun
  rw [parseLoop]
  have hstep1 : step (tablesABGoto gt f fs) (n + 2) (parseInit p { toks := toks, pos := 0 }).1
      (parseInit p { toks := toks, pos := 0 }).2 =
      Except.ok (StepOut.next
        { stack := { state := [0, 2], attrib := [Attrib.nil, Attrib.tok (toks 0)] },
          nextToken := toks 1, pos := p.pos } { toks := toks, pos := 2 } [Event.shift 2]) := by
    simp [step, parseInit, actionAt, topRow, stack.top, idx?, Parser.Reset, stack.reset,
      stack.push, Scanner.Scan, tablesABGoto, tablesAB, ha, dispatch]
  simp only [hstep1]
  rw [parseLoop]
  have hE : Parser.Error (tablesABGoto gt f fs)
      { stack := { state := [0, 2], attrib := [Attrib.nil, Attrib.tok (toks 0)] },
        nextToken := toks 1, pos := p.pos } none { toks := toks, pos := 2 } (n + 1) =
      Except.ok (false,
        { Err := none, ErrorToken := toks 1, ErrorSymbols := [], ExpectedTokens := ["b"],
          StackTop := 0 },
        { stack := { state := [0, 2], attrib := [Attrib.nil, Attrib.tok (toks 0)] },
          nextToken := toks 1, pos := p.pos }, { toks := toks, pos := 2 }) := by
    simp [Parser.Error, popNonRecoveryStates, firstRecoveryState, topRow, stack.top, idx?,
      tablesABGoto, tablesAB, stack.topIndex, recoveryLoop, stack.peek, expectedFrom, tokIdAB]
  have hact : actionAt (tablesABGoto gt f fs)
      { state := [0, 2], attrib := [Attrib.nil, Attrib.tok (toks 0)] } (toks 1).Typ =
      some none := by
    simp [actionAt, topRow, stack.top, idx?, tablesABGoto, tablesAB, he]
  have hstep2 : step (tablesABGoto gt f fs) (n + 1)
      { stack := { state := [0, 2], attrib := [Attrib.nil, Attrib.tok (toks 0)] },
        nextToken := toks 1, pos := p.pos } { toks := toks, pos := 2 } =
      Except.ok (StepOut.done Attrib.nil
        (some { Err := none, StackTop := 2, ErrorToken := toks 1, ErrorSymbols := [],
                ExpectedTokens := ["b"] })
        { stack := { state := [0, 2], attrib := [Attrib.nil, Attrib.tok (toks 0)] },
          nextToken := toks 1, pos := p.pos } sc2
        [Event.error false, Event.panicMode false]) := by
    unfold step
    simp only [hact]
    unfold recover
    simp only [hE, hpm]
    simp [newError, stack.top, idx?, tablesABGoto, tablesAB, expectedFrom, tokIdAB]
  simp only [hstep2, List.nil_append, List.singleton_append]

theorem PanicMode_AB_noGoto (gt : List (List Int)) (f : List Attrib → Except String Attrib)
    (fs : List FollowSet) (toks : Nat → Token) (a : Attrib) (x : Token) (pp : Int) (n : Nat)
    (h0 : noGoto (tablesABGoto gt f fs) 0 = true) (h2 : noGoto (tablesABGoto gt f fs) 2 = true)
    (hfs : ∀ v ∈ fs, v.Nonterminal ≠ "") :
    Parser.PanicMode (tablesABGoto gt f fs)
        { stack := { state := [0, 2], attrib := [Attrib.nil, a] }, nextToken := x, pos := pp }
        { toks := toks, pos := 2 } n =
      Except.ok (false,
        { stack := { state := [0, 2], attrib := [Attrib.nil, a] }, nextToken := x, pos := pp },
        { toks := toks, pos := 2 }) := by
  have hfind : (tablesABGoto gt f fs).followsets.find? (fun v => v.Nonterminal == "") = none := by
    rw [List.find?_eq_none]
    intro v hv
    simpa using hfs v hv
  unfold Parser.PanicMode
  simp only [List.length_cons, List.length_nil, Nat.zero_add, Nat.reduceAdd,
    unwind_AB_noGoto gt f fs a h0 h2, hfind]

/-- On the tables of `S : "a" "b"` themselves, whose state `0` has the GOTO
entry on `S`, the input `a $` does not meet the premise of Scenario B:
`PanicMode` finds that entry, pops the state reached by `a` and pushes a frame
of state `0` before failing, and the fatal error is built from the top it
leaves; its expected tokens are `["a"]`. -/
theorem scenarioB_expected_tokens :
    ∃ e, Parser.Parse (tablesAB reduceNode followsAB) NewParser (Scanner.ofList [tokA] tokEOF) 3 =
        Except.ok (Attrib.nil, some e) ∧
      e.StackTop = 0 ∧ e.ExpectedTokens = ["a"] ∧ ¬ ("b" ∈ e.ExpectedTokens) := by
  obtain ⟨sc2, h⟩ := scenarioB_run reduceNode followsAB (Scanner.ofList [tokA] tokEOF).toks
    NewParser 0 rfl rfl rfl (by simp [followsAB, Scanner.ofList, tokEOF])
  refine ⟨{ Err := none, StackTop := 0, ErrorToken := (Scanner.ofList [tokA] tokEOF).toks 1,
            ErrorSymbols := [], ExpectedTokens := ["a"] }, ?_, rfl, rfl, by simp⟩
  have h1 : (Scanner.ofList [tokA] tokEOF) =
      { toks := (Scanner.ofList [tokA] tokEOF).toks, pos := 0 } := rfl
  rw [h1]
  simp only [Parser.Parse, h]

/-- C3.  Recovery exhaustion: whenever the lookahead has no ACTION at the
stack top, `Error` returns `recovered = false` and `PanicMode` returns
`false`, `Parse` returns a nil result with a `ParseError` whose `StackTop` is
the top state of the stack at that point, whose `ErrorToken` is the offending
token and whose `ExpectedTokens` are exactly the names of the columns with a
defined ACTION at that top state.  Scenario B: for the ACTION table of
`S : "a" "b"` (no `error` action) and GOTO rows without a defined entry for
the states `0` and `2` on the stack, on the input `a $`, when `PanicMode`
returns `false` `Parse` returns such an error, with `StackTop` the state
reached by `a` and `"b"` the expected token; and `PanicMode` does return
`false`, for every fuel, when no follow set is keyed by the empty name. -/
theorem recovery_exhaustion :
    (∀ (T : Tables) (p : Parser) (sc : Scanner) (fuel : Nat) (tr : List Event)
        (ea : ParseError Attrib) (p1 : Parser) (sc1 : Scanner) (p2 : Parser) (sc2 : Scanner),
      T.actionTab.length = T.gotoTab.length →
      actionAt T p.stack p.nextToken.Typ = some none →
      Parser.Error T p none sc fuel = Except.ok (false, ea, p1, sc1) →
      Parser.PanicMode T { p1 with nextToken := ea.ErrorToken } sc1 fuel =
        Except.ok (false, p2, sc2) →
      ∃ (e : ParseError Attrib) (st : Int) (row : actionRow),
        parseLoop T (fuel + 1) p sc tr =
          Except.ok { res := Attrib.nil, err := some e, parser := p2, scanner := sc2,
                      trace := tr ++ [Event.error false, Event.panicMode false] } ∧
        p2.stack.top = some st ∧ idx? T.actionTab st = some row ∧
        e.StackTop = st ∧ e.ErrorToken = p.nextToken ∧
        ∀ name, name ∈ e.ExpectedTokens ↔
          ∃ (t : Nat) (a : action), row.actions[t]? = some (some a) ∧ name = T.tokId (t : Int)) ∧
    (∀ (gt : List (List Int)) (f : List Attrib → Except String Attrib) (fs : List FollowSet)
        (toks : Nat → Token) (p : Parser) (n : Nat) (p2 : Parser) (sc2 : Scanner),
      (toks 0).Typ = 2 → (toks 1).Typ = 1 →
      noGoto (tablesABGoto gt f fs) 0 = true → noGoto (tablesABGoto gt f fs) 2 = true →
      Parser.PanicMode (tablesABGoto gt f fs)
          { stack := { state := [0, 2], attrib := [Attrib.nil, Attrib.tok (toks 0)] },
            nextToken := toks 1, pos := p.pos } { toks := toks, pos := 2 } (n + 1) =
        Except.ok (false, p2, sc2) →
      ∃ e : ParseError Attrib,
        Parser.Parse (tablesABGoto gt f fs) p { toks := toks, pos := 0 } (n + 3) =
          Except.ok (Attrib.nil, some e) ∧
        e.StackTop = 2 ∧ e.ErrorToken = toks 1 ∧ e.ExpectedTokens = ["b"] ∧
        "b" ∈ e.ExpectedTokens) ∧
    (∀ (gt : List (List Int)) (f : List Attrib → Except String Attrib) (fs : List FollowSet)
        (toks : Nat → Token) (p : Parser) (n : Nat),
      (toks 0).Typ = 2 → (toks 1).Typ = 1 →
      noGoto (tablesABGoto gt f fs) 0 = true → noGoto (tablesABGoto gt f fs) 2 = true →
      (∀ v ∈ fs, v.Nonterminal ≠ "") →
      ∃ e : ParseError Attrib,
        Parser.Parse (tablesABGoto gt f fs) p { toks := toks, pos := 0 } (n + 3) =
          Except.ok (Attrib.nil, some e) ∧
        e.StackTop = 2 ∧ e.ErrorToken = toks 1 ∧ e.ExpectedTokens = ["b"] ∧
        "b" ∈ e.ExpectedTokens) := by
  refine ⟨?_, ?_, ?_⟩
  · intro T p sc fuel tr ea p1 sc1 p2 sc2 hshape hact herr hpm
    obtain ⟨e, st, row, h1, h2⟩ := exhaustion_step T p sc fuel ea p1 sc1 p2 sc2 hshape hact herr hpm
    refine ⟨e, st, row, ?_, h2⟩
    rw [parseLoop]
    simp only [h1]
  · intro gt f fs toks p n p2 sc2 ha he h0 h2 hpm
    have h := scenarioB_noGoto_run gt f fs toks p n p2 sc2 ha he h0 h2 hpm
    refine ⟨{ Err := none, StackTop := 2, ErrorToken := toks 1, ErrorSymbols := [],
              ExpectedTokens := ["b"] }, ?_, rfl, rfl, rfl, by simp⟩
    simp only [Parser.Parse, h]
  · intro gt f fs toks p n ha he h0 h2 hfs
    have hpm := PanicMode_AB_noGoto gt f fs toks (Attrib.tok (toks 0)) (toks 1) p.pos (n + 1)
      h0 h2 hfs
    have h := scenarioB_noGoto_run gt f fs toks p n _ _ ha he h0 h2 hpm
    refine ⟨{ Err := none, StackTop := 2, ErrorToken := toks 1, ErrorSymbols := [],
              ExpectedTokens := ["b"] }, ?_, rfl, rfl, rfl, by simp⟩
    simp only [Parser.Parse, h]

/-- Witness of C3: the input `a $` on the ACTION table of `S : "a" "b"` with no
GOTO entry defined and the follow sets of the grammar. -/
theorem recovery_exhaustion_witness :
    ∃ e, Parser.Parse (tablesABGoto [[-1, -1], [-1, -1], [-1, -1], [-1, -1]] reduceNode followsAB)
        NewParser (Scanner.ofList [tokA] tokEOF) 3 = Except.ok (Attrib.nil, some e) ∧
      e.StackTop = 2 ∧ e.ErrorToken = tokEOF ∧ e.ExpectedTokens = ["b"] := by
  obtain ⟨e, h1, h2, h3, h4, -⟩ := recovery_exhaustion.2.1
    [[-1, -1], [-1, -1], [-1, -1], [-1, -1]] reduceNode followsAB
    (Scanner.ofList [tokA] tokEOF).toks NewParser 0
    { stack := { state := [0, 2], attrib := [Attrib.nil, Attrib.tok tokA] },
      nextToken := tokEOF, pos := 0 }
    { toks := (Scanner.ofList [tokA] tokEOF).toks, pos := 2 }
    rfl rfl (by decide) (by decide)
    (by simp [Parser.PanicMode, unwind, idx?, tablesABGoto, tablesAB, gotoScan, followsAB,
      NewParser, Parser.Reset, Scanner.ofList])
  exact ⟨e, h1, h2, h3, h4⟩

/-! ## Panic-mode recovery -/

theorem discard_terminates (v : FollowSet) (lit : String) :
    ∀ (k : Nat) (sc : Scanner), (sc.toks (sc.pos + k)).Lit.length = 0 →
      ∃ r, discard v lit (k + 1) sc = Except.ok r := by
  intro k
  induction k with
  | zero =>
    intro sc h
    unfold discard
    by_cases hm : lit ∈ v.Terminals
    · exact ⟨_, if_pos hm⟩
    · rw [if_neg hm]
      have h1 : (sc.Scan).1.Lit.length = 0 := by simpa [Scanner.Scan] using h
      simp only [h1, if_true]
      exact ⟨_, rfl⟩
  | succ k ih =>
    intro sc h
    unfold discard
    by_cases hm : lit ∈ v.Terminals
    · exact ⟨_, if_pos hm⟩
    · rw [if_neg hm]
      by_cases h1 : (sc.Scan).1.Lit.length = 0
      · simp only [h1, if_true]
        exact ⟨_, rfl⟩
      · simp only [h1, if_false]
        apply ih
        have e : (sc.Scan).2.pos + k = sc.pos + (k + 1) := by
          simp [Scanner.Scan]; omega
        have e2 : (sc.Scan).2.toks = sc.toks := rfl
        rw [e2, e]
        exact h

theorem discard_not_mem (v : FollowSet) (lit : String) (hm : lit ∉ v.Terminals) :
    ∀ (fuel : Nat) (sc : Scanner) (b : Bool) (sc1 : Scanner),
      discard v lit fuel sc = Except.ok (b, sc1) → b = false := by
  intro fuel
  induction fuel with
  | zero => intro sc b sc1 h; simp [discard] at h
  | succ f ih =>
    intro sc b sc1 h
    unfold discard at h
    rw [if_neg hm] at h
    simp only at h
    split at h
    · simp only [Except.ok.injEq, Prod.mk.injEq] at h
      exact h.1.symm
    · exact ih _ _ _ h

theorem PanicMode_terminates (T : Tables) (p : Parser) (sc : Scanner) (k : Nat)
    (r : stack × Int × String) (hu : unwind T p.stack p.stack.state.length = some r)
    (h : (sc.toks (sc.pos + k)).Lit.length = 0) :
    ∃ res, Parser.PanicMode T p sc (k + 1) = Except.ok res := by
  obtain ⟨s1, vs, nt⟩ := r
  unfold Parser.PanicMode
  simp only [hu]
  split
  · exact ⟨_, rfl⟩
  · rename_i v hv
    obtain ⟨⟨b, sc1⟩, hd⟩ := discard_terminates v p.nextToken.Lit k sc h
    simp only [hd]
    exact ⟨_, rfl⟩

theorem PanicMode_stack (T : Tables) (p : Parser) (sc : Scanner) (fuel : Nat)
    (r : stack × Int × String) (hu : unwind T p.stack p.stack.state.length = some r)
    (res : Bool × Parser × Scanner) (h : Parser.PanicMode T p sc fuel = Except.ok res) :
    res.2.1.stack = r.1 := by
  obtain ⟨s1, vs, nt⟩ := r
  unfold Parser.PanicMode at h
  simp only [hu] at h
  split at h
  · simp only [Except.ok.injEq] at h
    subst h
    rfl
  · split at h
    · exact absurd h (by simp)
    · simp only [Except.ok.injEq] at h
      subst h
      rfl

theorem unwind_of_hasGoto (T : Tables) (s : stack) (i : Nat) (st : Int) (hbal : s.balanced)
    (hst : s.state[i]? = some st) (hg : hasGoto T st = true)
    (hmax : ∀ j st1, i < j → s.state[j]? = some st1 → noGoto T st1 = true)
    (hprod : ∀ row ∈ T.gotoTab, row.length ≤ T.productionsTable.length) :
    ∃ (row : List Int) (k : Nat) (e : ProdTabEntry),
      idx? T.gotoTab st = some row ∧ firstGoto row 0 = some k ∧
      T.productionsTable[k]? = some e ∧
      unwind T s s.state.length =
        some ({ state := s.state.take (i + 1) ++ [st],
                attrib := s.attrib.take (i + 1) ++ [Attrib.sym e.Id] }, st, e.Id) := by
  unfold hasGoto at hg
  split at hg
  · exact absurd hg (by simp)
  · rename_i row hrow
    obtain ⟨k, hk, -, hklt⟩ := firstGoto_some_of_any row hg 0
    have hmem : row ∈ T.gotoTab := by
      unfold idx? at hrow
      split at hrow
      · exact absurd hrow (by simp)
      · exact List.getElem?_mem hrow
    have hlen := hprod row hmem
    have hklt2 : k < T.productionsTable.length := by omega
    have hi : i < s.state.length := by
      obtain ⟨h, -⟩ := List.getElem?_eq_some_iff.mp hst
      exact h
    refine ⟨row, k, T.productionsTable[k], hrow, hk, List.getElem?_eq_getElem hklt2, ?_⟩
    exact unwind_found T s i st row k _ hbal hst hrow hk (List.getElem?_eq_getElem hklt2)
      s.state.length hi (le_refl _) (fun j st1 h1 _ h3 => hmax j st1 h1 h3)

/-- C4 (the code at the failing input).  With the tables of
`S : "a" T "d" ; T : "c"`, after `a` and with lookahead `x`, `PanicMode`
selects `T`, whose follow set holds `d`; the scanner still yields `d` and the
end of input.  `PanicMode` does not stop at `d`: its loop tests the literal of
the unchanged lookahead `x` on every pass, so it pulls `d`, pulls the end of
input, and returns `false` with lookahead `x`. -/
theorem panicMode_misses_sync_token (n : Nat) :
    Parser.PanicMode (tablesATD reduceNode reduceNode) (parserAfterA tokX)
        { toks := (Scanner.ofList [tokA, tokX, tokD] tokEOF).toks, pos := 2 } (n + 2) =
      Except.ok (false,
        { stack := { state := [0, 2, 2],
                     attrib := [Attrib.nil, Attrib.tok tokA, Attrib.sym "T"] },
          nextToken := tokX, pos := 0 },
        { toks := (Scanner.ofList [tokA, tokX, tokD] tokEOF).toks, pos := 4 }) ∧
    ((Scanner.ofList [tokA, tokX, tokD] tokEOF).toks 2).Lit = "d" ∧
    (tablesATD reduceNode reduceNode).followsets.find? (fun v => v.Nonterminal == "T") =
      some { Nonterminal := "T", Terminals := ["d"] } := by
  have hd : ¬ ("d".length = 0) := by decide
  refine ⟨?_, rfl, ?_⟩
  · simp [Parser.PanicMode, parserAfterA, unwind, idx?, tablesATD, gotoScan, stack.popN,
      stack.push, discard, Scanner.Scan, Scanner.ofList, tokX, tokD, tokEOF, tokA, hd]
  · simp [tablesATD]

/-- C5.  Panic-mode stack effect: let `i` be the greatest index of the stack
whose state `st` has a defined GOTO entry (the states above it have a GOTO row
without one).  The stack loop of `PanicMode` then leaves the frames `0..i`
unchanged followed by one new frame of state `st` holding a nonterminal name;
that is the stack after every call of `PanicMode` that returns, and the call
returns once the scanner yields a token with an empty literal. -/
theorem panicMode_stack_effect (T : Tables) (p : Parser) (sc : Scanner) (i : Nat) (st : Int)
    (hbal : p.stack.balanced) (hst : p.stack.state[i]? = some st) (hg : hasGoto T st = true)
    (hmax : ∀ j st1, i < j → p.stack.state[j]? = some st1 → noGoto T st1 = true)
    (hprod : ∀ row ∈ T.gotoTab, row.length ≤ T.productionsTable.length) :
    ∃ A : String,
      unwind T p.stack p.stack.state.length =
        some ({ state := p.stack.state.take (i + 1) ++ [st],
                attrib := p.stack.attrib.take (i + 1) ++ [Attrib.sym A] }, st, A) ∧
      (∀ (fuel : Nat) (r : Bool × Parser × Scanner),
        Parser.PanicMode T p sc fuel = Except.ok r →
        r.2.1.stack = { state := p.stack.state.take (i + 1) ++ [st],
                        attrib := p.stack.attrib.take (i + 1) ++ [Attrib.sym A] }) ∧
      (∀ k : Nat, (sc.toks (sc.pos + k)).Lit.length = 0 →
        ∃ r, Parser.PanicMode T p sc (k + 1) = Except.ok r) := by
  obtain ⟨row, k, e, -, -, -, hu⟩ := unwind_of_hasGoto T p.stack i st hbal hst hg hmax hprod
  refine ⟨e.Id, hu, ?_, ?_⟩
  · intro fuel r hr
    exact PanicMode_stack T p sc fuel _ hu r hr
  · intro k hk
    exact PanicMode_terminates T p sc k _ hu hk

/-- Witness of C5: the stack `0, 2` on the tables of `S : "a" T "d" ; T : "c"`,
whose top state `2` has the GOTO entry on `T`. -/
theorem panicMode_stack_effect_witness :
    ∃ A : String,
      unwind (tablesATD reduceNode reduceNode) (parserAfterA tokX).stack 2 =
        some ({ state := [0, 2, 2], attrib := [Attrib.nil, Attrib.tok tokA, Attrib.sym A] },
          2, A) := by
  obtain ⟨A, h, -, -⟩ := panicMode_stack_effect (tablesATD reduceNode reduceNode)
    (parserAfterA tokX) { toks := (Scanner.ofList [tokA, tokX, tokD] tokEOF).toks, pos := 2 } 1 2
    rfl rfl (by decide)
    (fun j st1 hj h => by
      have : (parserAfterA tokX).stack.state[j]? = none := by
        simp [parserAfterA]; omega
      rw [this] at h
      exact absurd h (by simp))
    (by simp [tablesATD])
  exact ⟨A, h⟩

/-- C6 (the code at the failing input).  With the tables of
`S : "a" T | "b" ; T : "c"`, after `a` the top state `2` has its only GOTO
entry in column `2`, the column of `T`.  `PanicMode` records
`productionsTable[2].Id`, the name of the production `S : b`: the frame it
pushes holds `S`, a nonterminal whose GOTO entry at state `2` is undefined,
and it consults the follow set of `S`. -/
theorem panicMode_records_production_name :
    unwind (tablesATB reduceNode reduceNode reduceNode) (parserAfterA tokX).stack 2 =
      some ({ state := [0, 2, 2], attrib := [Attrib.nil, Attrib.tok tokA, Attrib.sym "S"] },
        2, "S") ∧
    firstGoto [-1, -1, 4] 0 = some 2 ∧
    idx? (tablesATB reduceNode reduceNode reduceNode).gotoTab 2 = some [-1, -1, 4] ∧
    ntName (tablesATB reduceNode reduceNode reduceNode) 2 = some "T" ∧
    ntColumn (tablesATB reduceNode reduceNode reduceNode) "S" = some 1 ∧
    idx? [-1, -1, 4] 1 = some (-1) := by
  refine ⟨?_, ?_, ?_, ?_, ?_, ?_⟩
  · simp [parserAfterA, unwind, idx?, tablesATB, gotoScan, stack.popN, stack.push]
  · simp [firstGoto]
  · simp [idx?, tablesATB]
  · simp [ntName, tablesATB]
  · simp [ntColumn, tablesATB]
  · simp [idx?]

/-- C7, counterexample.  With the tables of `S : "a" T "d" ; T : "c"`, after
`a` and with lookahead `d`, `PanicMode` finds the GOTO entry of the top state
and resumes; the stack depth goes from `2` to `3`. -/
theorem panicMode_top_state_grows_stack :
    ∃ p2 sc2, Parser.PanicMode (tablesATD reduceNode reduceNode) (parserAfterA tokD)
        { toks := (Scanner.ofList [tokA, tokD] tokEOF).toks, pos := 2 } 1 =
        Except.ok (true, p2, sc2) ∧
      (parserAfterA tokD).stack.state.length = 2 ∧ p2.stack.state.length = 3 ∧
      ¬ (p2.stack.state.length < (parserAfterA tokD).stack.state.length) := by
  refine ⟨{ stack := { state := [0, 2, 2],
                       attrib := [Attrib.nil, Attrib.tok tokA, Attrib.sym "T"] },
            nextToken := tokD, pos := 0 },
          { toks := (Scanner.ofList [tokA, tokD] tokEOF).toks, pos := 2 }, ?_, rfl, rfl,
          by simp [parserAfterA]⟩
  simp [Parser.PanicMode, parserAfterA, unwind, idx?, tablesATD, gotoScan, stack.popN,
    stack.push, discard, tokD]

/-- C7, amended.  Panic-mode depth: when `PanicMode` finds the GOTO-bearing
state at stack index `i` (the greatest such index), the stack depth after it
is `i + 2`: at most one more than before, and strictly smaller than before
when at least two frames lay above that state. -/
theorem panicMode_depth (T : Tables) (p : Parser) (sc : Scanner) (i : Nat) (st : Int)
    (fuel : Nat) (b : Bool) (p2 : Parser) (sc2 : Scanner)
    (hbal : p.stack.balanced) (hst : p.stack.state[i]? = some st) (hg : hasGoto T st = true)
    (hmax : ∀ j st1, i < j → p.stack.state[j]? = some st1 → noGoto T st1 = true)
    (hprod : ∀ row ∈ T.gotoTab, row.length ≤ T.productionsTable.length)
    (h : Parser.PanicMode T p sc fuel = Except.ok (b, p2, sc2)) :
    p2.stack.state.length = i + 2 ∧
    p2.stack.state.length ≤ p.stack.state.length + 1 ∧
    (p2.stack.state.length < p.stack.state.length ↔ i + 2 < p.stack.state.length) := by
  obtain ⟨row, k, e, -, -, -, hu⟩ := unwind_of_hasGoto T p.stack i st hbal hst hg hmax hprod
  have hs := PanicMode_stack T p sc fuel _ hu _ h
  have hi : i < p.stack.state.length := (List.getElem?_eq_some_iff.mp hst).1
  simp only at hs
  rw [hs]
  simp only [List.length_append, List.length_take, List.length_cons, List.length_nil]
  omega

/-- Witness of C7: three frames above the GOTO-bearing state `0` on the tables
of `S : "a" "b"`; the depth goes from `4` to `2`. -/
theorem panicMode_depth_witness :
    Parser.PanicMode (tablesAB reduceNode followsAB)
        { stack := { state := [0, 2, 3, 3],
                     attrib := [Attrib.nil, Attrib.tok tokA, Attrib.tok tokB, Attrib.tok tokB] },
          nextToken := tokEOF, pos := 0 }
        (Scanner.ofList [] tokEOF) 1 =
      Except.ok (false,
        { stack := { state := [0, 0], attrib := [Attrib.nil, Attrib.sym "S"] },
          nextToken := tokEOF, pos := 0 },
        { toks := (Scanner.ofList [] tokEOF).toks, pos := 1 }) ∧
    ({ state := [0, 0], attrib := [Attrib.nil, Attrib.sym "S"] } : stack).state.length = 0 + 2 := by
  have hpm : Parser.PanicMode (tablesAB reduceNode followsAB)
        { stack := { state := [0, 2, 3, 3],
                     attrib := [Attrib.nil, Attrib.tok tokA, Attrib.tok tokB, Attrib.tok tokB] },
          nextToken := tokEOF, pos := 0 }
        (Scanner.ofList [] tokEOF) 1 =
      Except.ok (false,
        { stack := { state := [0, 0], attrib := [Attrib.nil, Attrib.sym "S"] },
          nextToken := tokEOF, pos := 0 },
        { toks := (Scanner.ofList [] tokEOF).toks, pos := 1 }) := by
    simp [Parser.PanicMode, unwind, idx?, tablesAB, gotoScan, stack.popN, stack.push, discard,
      followsAB, tokEOF, Scanner.Scan, Scanner.ofList]
  exact ⟨hpm,
    (panicMode_depth (tablesAB reduceNode followsAB)
      { stack := { state := [0, 2, 3, 3],
                   attrib := [Attrib.nil, Attrib.tok tokA, Attrib.tok tokB, Attrib.tok tokB] },
        nextToken := tokEOF, pos := 0 }
      (Scanner.ofList [] tokEOF) 0 0 1 false _ _ rfl rfl (by decide)
      (fun j st1 hj hs => by
        match j, hj, hs with
        | 1, _, hs => simp at hs; subst hs; decide
        | 2, _, hs => simp at hs; subst hs; decide
        | 3, _, hs => simp at hs; subst hs; decide
        | n + 4, _, hs => simp at hs)
      (by simp [tablesAB]) hpm).1⟩

/-- C8, counterexample.  On the tables of `S : "a" "b"` with every GOTO entry
undefined and a follow set keyed by the empty name that holds `c`, no state of
the stack `0, 2` has a defined GOTO entry, yet `PanicMode` with lookahead `c`
returns `true`: the recorded symbol is still the initial `""`, which finds
that follow set. -/
theorem panicMode_empty_name_follow_set :
    (∀ st ∈ (parserAfterA tokC).stack.state,
      noGoto (tablesABNoGoto reduceNode [{ Nonterminal := "", Terminals := ["c"] }]) st = true) ∧
    Parser.PanicMode (tablesABNoGoto reduceNode [{ Nonterminal := "", Terminals := ["c"] }])
        (parserAfterA tokC) (Scanner.ofList [] tokEOF) 1 =
      Except.ok (true, parserAfterA tokC, Scanner.ofList [] tokEOF) := by
  constructor
  · intro st hst
    simp [parserAfterA] at hst
    rcases hst with h | h <;> subst h <;> decide
  · simp [Parser.PanicMode, parserAfterA, unwind, idx?, tablesABNoGoto, tablesAB, gotoScan,
      discard, tokC]

/-- C8, amended.  Panic-mode failure: `PanicMode` returns `false`, leaving the
parser and the scanner as they were, whenever no state on the stack has a
defined GOTO entry and no follow set is keyed by the empty name; and it
returns `false`, without pulling a token, whenever the nonterminal `A` its
stack loop selects has no follow-set entry. -/
theorem panicMode_failure (T : Tables) (p : Parser) (sc : Scanner) (fuel : Nat) :
    ((∀ st ∈ p.stack.state, noGoto T st = true) → (∀ v ∈ T.followsets, v.Nonterminal ≠ "") →
      Parser.PanicMode T p sc fuel = Except.ok (false, p, sc)) ∧
    (∀ (s1 : stack) (vs : Int) (A : String),
      unwind T p.stack p.stack.state.length = some (s1, vs, A) →
      (∀ v ∈ T.followsets, v.Nonterminal ≠ A) →
      Parser.PanicMode T p sc fuel = Except.ok (false, { p with stack := s1 }, sc)) := by
  have key : ∀ (s1 : stack) (vs : Int) (A : String),
      unwind T p.stack p.stack.state.length = some (s1, vs, A) →
      (∀ v ∈ T.followsets, v.Nonterminal ≠ A) →
      Parser.PanicMode T p sc fuel = Except.ok (false, { p with stack := s1 }, sc) := by
    intro s1 vs A hu hf
    have hfind : T.followsets.find? (fun v => v.Nonterminal == A) = none := by
      rw [List.find?_eq_none]
      intro v hv
      simpa using hf v hv
    unfold Parser.PanicMode
    simp only [hu, hfind]
  refine ⟨?_, key⟩
  intro hno hf
  have hu := unwind_none T p.stack p.stack.state.length
    (fun j st _ hs => hno st (List.getElem?_mem hs)) (le_refl _)
  exact key _ _ _ hu hf

/-- Witness of C8: the stack `0, 2` on the tables of `S : "a" "b"` with every
GOTO entry undefined and the follow sets of the grammar. -/
theorem panicMode_failure_witness :
    Parser.PanicMode (tablesABNoGoto reduceNode followsAB) (parserAfterA tokC)
        (Scanner.ofList [] tokEOF) 0 =
      Except.ok (false, parserAfterA tokC, Scanner.ofList [] tokEOF) :=
  (panicMode_failure (tablesABNoGoto reduceNode followsAB) (parserAfterA tokC)
    (Scanner.ofList [] tokEOF) 0).1
    (fun st hst => by
      simp [parserAfterA] at hst
      rcases hst with h | h <;> subst h <;> decide)
    (fun v hv => by
      simp [tablesABNoGoto, tablesAB, followsAB] at hv
      rcases hv with h | h <;> subst h <;> decide)

/-! ## Stack non-emptiness -/

theorem stack.grounded_length (s : stack) (h : s.grounded) : 1 ≤ s.state.length := by
  unfold stack.grounded at h
  cases hs : s.state with
  | nil => rw [hs] at h; simp at h
  | cons a l => simp

theorem stack.push_grounded (s : stack) (st : Int) (a : Attrib) (h : s.grounded) :
    (s.push st a).grounded := by
  unfold stack.grounded at *
  cases hs : s.state with
  | nil => rw [hs] at h; simp at h
  | cons x l =>
    rw [hs] at h
    simp [stack.push, hs] at h ⊢
    exact h

theorem stack.popN_state (s s1 : stack) (k : Int) (popped : List Attrib)
    (hp : s.popN k = some (popped, s1)) :
    s1.state = s.state.take ((s.state.length : Int) - k).toNat ∧ 0 ≤ (s.state.length : Int) - k := by
  unfold stack.popN at hp
  simp only at hp
  split at hp
  · rename_i hc
    simp only [Option.some.injEq, Prod.mk.injEq] at hp
    obtain ⟨-, rfl⟩ := hp
    exact ⟨rfl, hc.1⟩
  · exact absurd hp (by simp)

theorem stack.popN_grounded (s s1 : stack) (k : Int) (popped : List Attrib) (h : s.grounded)
    (hp : s.popN k = some (popped, s1)) (hne : 1 ≤ (s.state.length : Int) - k) :
    s1.grounded := by
  obtain ⟨h1, -⟩ := stack.popN_state s s1 k popped hp
  unfold stack.grounded at *
  rw [h1]
  cases hs : s.state with
  | nil => rw [hs] at h; simp at h
  | cons x l =>
    rw [hs] at h
    have : ((((x :: l).length : Nat) : Int) - k).toNat = (((((x :: l).length : Nat) : Int) - k).toNat - 1) + 1 := by
      rw [hs] at hne
      omega
    rw [this]
    simpa using h

theorem unwind_grounded (T : Tables) (s : stack) (h : s.grounded) (n : Nat)
    (r : stack × Int × String) (hr : unwind T s n = some r) : r.1.grounded := by
  obtain ⟨s1, vs, nt⟩ := r
  rcases unwind_shape T s n s1 vs nt hr with ⟨h1, -, -⟩ | ⟨i, row, popped, s0, -, hst, -, -, -, hpop, h1⟩
  · simp only [h1]; exact h
  · subst h1
    have hi : i < s.state.length := (List.getElem?_eq_some_iff.mp hst).1
    exact stack.push_grounded _ _ _ (stack.popN_grounded _ _ _ _ h hpop (by omega))

theorem PanicMode_grounded (T : Tables) (p : Parser) (sc : Scanner) (fuel : Nat)
    (r : Bool × Parser × Scanner) (h : p.stack.grounded)
    (hr : Parser.PanicMode T p sc fuel = Except.ok r) : r.2.1.stack.grounded := by
  cases hu : unwind T p.stack p.stack.state.length with
  | none => simp [Parser.PanicMode, hu] at hr
  | some u =>
    rw [PanicMode_stack T p sc fuel u hu r hr]
    exact unwind_grounded T p.stack h _ u hu

theorem recoveryLoop_nonneg (T : Tables) (s : stack) :
    ∀ (n : Nat) (c : Bool) (rs : Int) (b : Bool), recoveryLoop T s n c = some (rs, b) →
      0 ≤ rs ∧ rs ≤ (n : Int) := by
  intro n
  induction n with
  | zero =>
    intro c rs b h
    simp [recoveryLoop] at h
    omega
  | succ r ih =>
    intro c rs b h
    unfold recoveryLoop at h
    split at h
    · simp only [Option.some.injEq, Prod.mk.injEq] at h
      omega
    · split at h
      · exact absurd h (by simp)
      · split at h
        · exact absurd h (by simp)
        · have := ih _ _ _ h
          omega

theorem popNonRecoveryStates_grounded (T : Tables) (s s1 : stack) (syms : List Attrib)
    (h : s.grounded) (hp : popNonRecoveryStates T s = some (syms, s1)) : s1.grounded := by
  unfold popNonRecoveryStates at hp
  split at hp
  · exact absurd hp (by simp)
  · rename_i rs hf
    unfold firstRecoveryState at hf
    split at hf
    · exact absurd hf (by simp)
    · have hb := recoveryLoop_nonneg T s _ _ _ _ hf
      have hl := stack.grounded_length s h
      refine stack.popN_grounded _ _ _ _ h hp ?_
      unfold stack.topIndex at hb ⊢
      have : (((s.state.length : Int) - 1).toNat : Int) = (s.state.length : Int) - 1 := by omega
      omega
  · simp only [Option.some.injEq, Prod.mk.injEq] at hp
    obtain ⟨-, rfl⟩ := hp
    exact h

theorem Error_grounded (T : Tables) (p : Parser) (err : Option String) (sc : Scanner) (fuel : Nat)
    (r : Bool × ParseError Attrib × Parser × Scanner) (h : p.stack.grounded)
    (hr : Parser.Error T p err sc fuel = Except.ok r) : r.2.2.1.stack.grounded := by
  unfold Parser.Error at hr
  split at hr
  · exact absurd hr (by simp)
  · rename_i syms s1 hpop
    have hb := popNonRecoveryStates_grounded T _ _ _ h hpop
    split at hr
    · exact absurd hr (by simp)
    · simp only at hr
      split at hr
      · exact absurd hr (by simp)
      · simp only [Except.ok.injEq] at hr
        subst hr
        exact hb
      · split at hr
        · exact absurd hr (by simp)
        · split at hr
          · exact absurd hr (by simp)
          · rename_i rec p3 sc3 hloop
            simp only [Except.ok.injEq] at hr
            subst hr
            have := errorLoop_stack T _ _ _ _ _ hloop
            simp only at this ⊢
            rw [this]
            exact stack.push_grounded _ _ _ hb
      · exact absurd hr (by simp)

theorem stack.popN_cases (s s1 : stack) (k : Int) (popped : List Attrib) (h : s.grounded)
    (hp : s.popN k = some (popped, s1)) : s1.state = [] ∨ s1.grounded := by
  obtain ⟨h1, h2⟩ := stack.popN_state s s1 k popped hp
  by_cases hm : ((s.state.length : Int) - k).toNat = 0
  · left
    rw [h1, hm]
    rfl
  · right
    exact stack.popN_grounded s s1 k popped h hp (by omega)

theorem stack.top_none_of_empty (s : stack) (h : s.state = []) : s.top = none := by
  simp [stack.top, h, idx?]

theorem PanicMode_empty (T : Tables) (p : Parser) (sc : Scanner) (fuel : Nat)
    (h : p.stack.state = []) (hfs : followsNamed T) :
    Parser.PanicMode T p sc fuel = Except.ok (false, p, sc) := by
  have hfind : T.followsets.find? (fun v => v.Nonterminal == "") = none := by
    rw [List.find?_eq_none]
    intro v hv
    simpa using hfs v hv
  unfold Parser.PanicMode
  simp only [h, List.length_nil, unwind, hfind]

theorem accept_depth (T : Tables) (s : stack) (typ : Int) (hacc : noAcceptAtStart T)
    (h : s.grounded) (hact : actionAt T s typ = some (some action.accept)) :
    2 ≤ s.state.length := by
  by_contra hlt
  have hl := stack.grounded_length s h
  have h1 : s.state.length = 1 := by omega
  unfold stack.grounded at h
  have hs : s.state = [0] := by
    cases hst : s.state with
    | nil => rw [hst] at h1; simp at h1
    | cons x l =>
      rw [hst] at h h1
      simp at h h1
      rw [h, h1]
  have htop : s.top = some 0 := by simp [stack.top, hs, idx?]
  unfold actionAt topRow at hact
  rw [htop] at hact
  simp only at hact
  split at hact
  · exact absurd hact (by simp)
  · rename_i row hrow
    have hmem : some action.accept ∈ row.actions := by
      unfold idx? at hact
      split at hact
      · exact absurd hact (by simp)
      · exact List.getElem?_mem hact
    exact hacc row hrow hmem

theorem dispatch_grounded (T : Tables) (fuel : Nat) (act : action) (p : Parser) (sc : Scanner)
    (ev : List Event) (r : StepOut) (typ : Int) (hacc : noAcceptAtStart T) (hfs : followsNamed T)
    (h : p.stack.grounded) (hact : actionAt T p.stack typ = some (some act))
    (hr : dispatch T fuel act p sc ev = Except.ok r) : r.parser.stack.grounded := by
  unfold dispatch at hr
  split at hr
  · have hd := accept_depth T p.stack typ hacc h hact
    split at hr
    · exact absurd hr (by simp)
    · rename_i popped s1 hpop
      split at hr
      · exact absurd hr (by simp)
      · simp only [Except.ok.injEq] at hr
        subst hr
        exact stack.popN_grounded _ _ _ _ h hpop (by omega)
  · simp only [Except.ok.injEq] at hr
    subst hr
    exact stack.push_grounded _ _ _ h
  · split at hr
    · exact absurd hr (by simp)
    · split at hr
      · exact absurd hr (by simp)
      · rename_i popped s1 hpop
        have hc := stack.popN_cases _ _ _ _ h hpop
        split at hr
        · rcases hc with hc | hc
          · have hpm := PanicMode_empty T { p with stack := s1 } sc fuel hc hfs
            rw [hpm] at hr
            simp only at hr
            have hn : newError T { p with stack := s1 } none = none := by
              simp [newError, stack.top_none_of_empty s1 hc]
            rw [hn] at hr
            exact absurd hr (by simp)
          · split at hr
            · exact absurd hr (by simp)
            · rename_i p2 sc2 hpm
              have hb2 := PanicMode_grounded T { p with stack := s1 } _ _ _ hc hpm
              split at hr
              · exact absurd hr (by simp)
              · simp only [Except.ok.injEq] at hr
                subst hr
                exact hb2
            · rename_i p2 sc2 hpm
              have hb2 := PanicMode_grounded T { p with stack := s1 } _ _ _ hc hpm
              simp only [Except.ok.injEq] at hr
              subst hr
              exact hb2
        · split at hr
          · exact absurd hr (by simp)
          · rename_i st htop
            have hg : s1.grounded := by
              rcases hc with hc | hc
              · rw [stack.top_none_of_empty s1 hc] at htop
                exact absurd htop (by simp)
              · exact hc
            split at hr
            · exact absurd hr (by simp)
            · split at hr
              · exact absurd hr (by simp)
              · simp only [Except.ok.injEq] at hr
                subst hr
                exact stack.push_grounded _ _ _ hg

theorem recover_grounded (T : Tables) (fuel : Nat) (p : Parser) (sc : Scanner)
    (r : StepOut) (hacc : noAcceptAtStart T) (hfs : followsNamed T) (h : p.stack.grounded)
    (hr : recover T fuel p sc = Except.ok r) : r.parser.stack.grounded := by
  unfold recover at hr
  split at hr
  · exact absurd hr (by simp)
  · rename_i ea p1 sc1 herr
    have hb := Error_grounded T _ _ _ _ _ h herr
    split at hr
    · exact absurd hr (by simp)
    · exact absurd hr (by simp)
    · rename_i act hact
      exact dispatch_grounded T _ _ _ _ _ _ _ hacc hfs hb hact hr
  · rename_i ea p1 sc1 herr
    have hb := Error_grounded T _ _ _ _ _ h herr
    split at hr
    · exact absurd hr (by simp)
    · rename_i p2 sc2 hpm
      have hb2 := PanicMode_grounded T { p1 with nextToken := ea.ErrorToken } _ _ _ hb hpm
      split at hr
      · exact absurd hr (by simp)
      · simp only [Except.ok.injEq] at hr
        subst hr
        exact hb2
    · rename_i p2 sc2 hpm
      have hb2 := PanicMode_grounded T { p1 with nextToken := ea.ErrorToken } _ _ _ hb hpm
      split at hr
      · exact absurd hr (by simp)
      · exact absurd hr (by simp)
      · rename_i act hact
        exact dispatch_grounded T _ _ _ _ _ _ _ hacc hfs hb2 hact hr

theorem step_grounded (T : Tables) (fuel : Nat) (p : Parser) (sc : Scanner)
    (r : StepOut) (hacc : noAcceptAtStart T) (hfs : followsNamed T) (h : p.stack.grounded)
    (hr : step T fuel p sc = Except.ok r) : r.parser.stack.grounded := by
  unfold step at hr
  split at hr
  · exact absurd hr (by simp)
  · exact recover_grounded T _ _ _ _ hacc hfs h hr
  · rename_i act hact
    exact dispatch_grounded T _ _ _ _ _ _ _ hacc hfs h hact hr

theorem Reset_grounded (p : Parser) : p.Reset.stack.grounded := by
  simp [Parser.Reset, stack.grounded, stack.push, stack.reset]

theorem LoopState_grounded (T : Tables) (p0 : Parser) (sc0 : Scanner) (p : Parser) (sc : Scanner)
    (hacc : noAcceptAtStart T) (hfs : followsNamed T)
    (h : LoopState T p0 sc0 p sc) : p.stack.grounded := by
  induction h with
  | init => exact Reset_grounded p0
  | pass fuel _ hstep ih => exact step_grounded T fuel _ _ _ hacc hfs ih hstep

/-- Tables no grammar yields can empty the stack, `Parse` checking no depth.
On tables whose state `0` accepts on the end of input, `Parse` on the empty
input accepts at depth `1` and the accept pass leaves an empty stack.  On
tables whose production `1` is as long as the whole stack, with a failing
reduce function and a follow set keyed by the empty name, the reduce pass on
`a b $` pops every frame, `PanicMode` resumes on the empty stack, and the pass
leaves an empty stack. -/
theorem stack_empty_on_malformed_tables :
    (∃ q, Observable tablesAcceptAtStart NewParser (Scanner.ofList [] tokEOF) q ∧
      q.stack.state.length = 0) ∧
    (∃ q, Observable tablesPopAll NewParser (Scanner.ofList [tokA, tokB] tokEOF) q ∧
      q.stack.state.length = 0) := by
  constructor
  · refine ⟨{ stack := { state := [], attrib := [] }, nextToken := tokEOF, pos := 0 }, ?_, rfl⟩
    refine Or.inr ⟨_, _, 0, StepOut.done Attrib.nil none
      { stack := { state := [], attrib := [] }, nextToken := tokEOF, pos := 0 }
      { toks := (Scanner.ofList [] tokEOF).toks, pos := 1 } [Event.accept],
      LoopState.init, ?_, rfl⟩
    simp [step, parseInit, actionAt, topRow, stack.top, idx?, Parser.Reset, stack.reset,
      stack.push, Scanner.Scan, tablesAcceptAtStart, tablesAB, dispatch, NewParser,
      stack.popN, Scanner.ofList, tokEOF, stack.newStack]
  · refine ⟨{ stack := { state := [], attrib := [] }, nextToken := tokEOF, pos := 0 }, ?_, rfl⟩
    have h1 : step tablesPopAll 0 (parseInit NewParser (Scanner.ofList [tokA, tokB] tokEOF)).1
        (parseInit NewParser (Scanner.ofList [tokA, tokB] tokEOF)).2 =
        Except.ok (StepOut.next
          { stack := { state := [0, 2], attrib := [Attrib.nil, Attrib.tok tokA] },
            nextToken := tokB, pos := 0 }
          { toks := (Scanner.ofList [tokA, tokB] tokEOF).toks, pos := 2 } [Event.shift 2]) := by
      simp [step, parseInit, actionAt, topRow, stack.top, idx?, Parser.Reset, stack.reset,
        stack.push, Scanner.Scan, tablesPopAll, tablesAB, dispatch, NewParser,
        Scanner.ofList, tokA, tokB, stack.newStack]
    have h2 : step tablesPopAll 0
        { stack := { state := [0, 2], attrib := [Attrib.nil, Attrib.tok tokA] },
          nextToken := tokB, pos := 0 }
        { toks := (Scanner.ofList [tokA, tokB] tokEOF).toks, pos := 2 } =
        Except.ok (StepOut.next
          { stack := { state := [0, 2, 3],
                       attrib := [Attrib.nil, Attrib.tok tokA, Attrib.tok tokB] },
            nextToken := tokEOF, pos := 0 }
          { toks := (Scanner.ofList [tokA, tokB] tokEOF).toks, pos := 3 } [Event.shift 3]) := by
      simp [step, actionAt, topRow, stack.top, idx?, stack.push, Scanner.Scan, tablesPopAll,
        tablesAB, dispatch, Scanner.ofList, tokB]
    have h3 : step tablesPopAll 1
        { stack := { state := [0, 2, 3],
                     attrib := [Attrib.nil, Attrib.tok tokA, Attrib.tok tokB] },
          nextToken := tokEOF, pos := 0 }
        { toks := (Scanner.ofList [tokA, tokB] tokEOF).toks, pos := 3 } =
        Except.ok (StepOut.next
          { stack := { state := [], attrib := [] }, nextToken := tokEOF, pos := 0 }
          { toks := (Scanner.ofList [tokA, tokB] tokEOF).toks, pos := 3 }
          [Event.reduce 1, Event.panicMode true]) := by
      simp [step, actionAt, topRow, stack.top, idx?, tablesPopAll, tablesAB, dispatch,
        stack.popN, reduceFail, Parser.PanicMode, unwind, discard, tokEOF]
    exact Or.inr ⟨_, _, 1, _, LoopState.pass 0 (LoopState.pass 0 LoopState.init h1) h2, h3, rfl⟩

/-- C10.  Stack non-emptiness, on well-formed tables: state `0` has no
`accept` action and no follow set is keyed by the empty name, as is the case
for the tables of every grammar (the accept item `S' : S .` is not in the
initial state, and follow sets are keyed by nonterminal names).  The stack
depth is at least `1`, the bottom state being `0`, after the initial `Reset`
and after every completed pass of the loop of `Parse` (shift, reduce, accept,
recovery); within a pass that finds no action it is at least `1` after the
call of `Error` and after the call of `PanicMode` that follows it. -/
theorem stack_nonempty (T : Tables) (hacc : noAcceptAtStart T) (hfs : followsNamed T) :
    (∀ (p0 : Parser) (sc0 : Scanner) (q : Parser), Observable T p0 sc0 q →
      1 ≤ q.stack.state.length ∧ q.stack.state.head? = some 0) ∧
    (∀ (p0 : Parser) (sc0 : Scanner) (p : Parser) (sc : Scanner), LoopState T p0 sc0 p sc →
      ∀ (fuel : Nat) (b : Bool) (ea : ParseError Attrib) (p1 : Parser) (sc1 : Scanner),
        Parser.Error T p none sc fuel = Except.ok (b, ea, p1, sc1) →
        1 ≤ p1.stack.state.length ∧
        ∀ r2 : Bool × Parser × Scanner,
          Parser.PanicMode T { p1 with nextToken := ea.ErrorToken } sc1 fuel = Except.ok r2 →
          1 ≤ r2.2.1.stack.state.length) := by
  constructor
  · intro p0 sc0 q h
    have hg : q.stack.grounded := by
      rcases h with h | ⟨p, sc, fuel, r, hl, hs, rfl⟩
      · subst h
        exact Reset_grounded p0
      · exact step_grounded T fuel _ _ _ hacc hfs (LoopState_grounded T p0 sc0 p sc hacc hfs hl) hs
    exact ⟨stack.grounded_length _ hg, hg⟩
  · intro p0 sc0 p sc hl fuel b ea p1 sc1 herr
    have hg := LoopState_grounded T p0 sc0 p sc hacc hfs hl
    have hg1 := Error_grounded T p none sc fuel _ hg herr
    refine ⟨stack.grounded_length _ hg1, ?_⟩
    intro r2 hpm
    exact stack.grounded_length _
      (PanicMode_grounded T { p1 with nextToken := ea.ErrorToken } sc1 fuel r2 hg1 hpm)

/-- Witness of C10: the tables of `S : "a" "b"` and the stack after the first
shift of the input `a b $`. -/
theorem stack_nonempty_witness :
    1 ≤ ({ state := [0, 2], attrib := [Attrib.nil, Attrib.tok tokA] } : stack).state.length ∧
    ({ state := [0, 2], attrib := [Attrib.nil, Attrib.tok tokA] } : stack).state.head? = some 0 :=
  (stack_nonempty (tablesAB reduceNode followsAB)
    (by
      intro row hrow
      simp [idx?, tablesAB] at hrow
      subst hrow
      simp)
    (by
      intro v hv
      simp [tablesAB, followsAB] at hv
      rcases hv with h | h <;> subst h <;> decide)).1
    NewParser (Scanner.ofList [tokA, tokB] tokEOF)
    { stack := { state := [0, 2], attrib := [Attrib.nil, Attrib.tok tokA] },
      nextToken := tokB, pos := 0 }
    (Or.inr ⟨_, _, 0, StepOut.next
      { stack := { state := [0, 2], attrib := [Attrib.nil, Attrib.tok tokA] },
        nextToken := tokB, pos := 0 }
      { toks := (Scanner.ofList [tokA, tokB] tokEOF).toks, pos := 2 } [Event.shift 2],
      LoopState.init,
      by
        simp [step, parseInit, actionAt, topRow, stack.top, idx?, Parser.Reset, stack.reset,
          stack.push, Scanner.Scan, tablesAB, dispatch, NewParser, Scanner.ofList, tokA, tokB,
          stack.newStack],
      rfl⟩)

/-! ## Reset and the stack operations -/

/-- C11.  Reset idempotence: whatever the stack held, `Parser.Reset` leaves
exactly one frame, state `0` with the nil attribute, and a second `Reset`
changes nothing. -/
theorem Reset_idempotent (p : Parser) :
    p.Reset.stack = { state := [0], attrib := [Attrib.nil] } ∧
    p.Reset.Reset.stack = p.Reset.stack ∧ p.Reset.Reset = p.Reset := by
  refine ⟨rfl, rfl, rfl⟩

theorem stack.popN_eq (s : stack) (k : Nat) (hbal : s.balanced) (hk : k ≤ s.state.length) :
    s.popN (k : Int) =
      some (s.attrib.drop (s.attrib.length - k),
        { state := s.state.take (s.state.length - k),
          attrib := s.attrib.take (s.attrib.length - k) }) := by
  have hb : s.state.length = s.attrib.length := hbal
  unfold stack.popN
  have e1 : ((s.state.length : Int) - (k : Int)).toNat = s.state.length - k := by omega
  have e2 : ((s.state.length : Int)).toNat = s.state.length := by omega
  simp only [e1, e2]
  rw [if_pos (by omega)]
  rw [hb, List.take_length]

theorem stack.pushAll_state (fs : List (Int × Attrib)) :
    ∀ s : stack, (s.pushAll fs).state = s.state ++ fs.map Prod.fst ∧
      (s.pushAll fs).attrib = s.attrib ++ fs.map Prod.snd := by
  induction fs with
  | nil => intro s; simp [stack.pushAll]
  | cons f rest ih =>
    intro s
    have h := ih (s.push f.1 f.2)
    simp only [stack.pushAll, List.foldl_cons] at h ⊢
    rw [h.1, h.2]
    simp [stack.push]

/-- C12.  popN undoes push: on a stack with as many states as attributes and
for `k` up to its depth, `popN k` returns the last `k` attributes, oldest
first, and leaves the state and attribute sequences with their last `k`
elements removed; pushing the frames `fs` and then calling `popN` with their
number returns their attributes in push order and restores the stack. -/
theorem popN_undoes_push (s : stack) (hbal : s.balanced) :
    (∀ k : Nat, k ≤ s.state.length →
      s.popN (k : Int) =
        some (s.attrib.drop (s.attrib.length - k),
          { state := s.state.take (s.state.length - k),
            attrib := s.attrib.take (s.attrib.length - k) })) ∧
    (∀ fs : List (Int × Attrib),
      (s.pushAll fs).popN (fs.length : Int) = some (fs.map Prod.snd, s)) := by
  refine ⟨fun k hk => stack.popN_eq s k hbal hk, ?_⟩
  intro fs
  obtain ⟨h1, h2⟩ := stack.pushAll_state fs s
  have hb : s.state.length = s.attrib.length := hbal
  have hbal2 : (s.pushAll fs).balanced := by
    simp [stack.balanced, h1, h2, hb]
  rw [stack.popN_eq _ fs.length hbal2 (by simp [h1])]
  simp [h1, h2]

/-- Witness of C12: two frames pushed on the stack of a fresh parser. -/
theorem popN_undoes_push_witness :
    (NewParser.stack.pushAll [(2, Attrib.tok tokA), (3, Attrib.tok tokB)]).popN 2 =
      some ([Attrib.tok tokA, Attrib.tok tokB], NewParser.stack) :=
  (popN_undoes_push NewParser.stack rfl).2 [(2, Attrib.tok tokA), (3, Attrib.tok tokB)]

/-! ## Sequential reuse -/

theorem errorLoop_setPos (T : Tables) (k : Int) :
    ∀ (fuel : Nat) (p : Parser) (sc : Scanner) (b : Bool),
      errorLoop T fuel (p.setPos k) sc b =
        match errorLoop T fuel p sc b with
        | Except.error e => Except.error e
        | Except.ok (r, p1, sc1) => Except.ok (r, p1.setPos k, sc1) := by
  intro fuel
  induction fuel with
  | zero => intro p sc b; rfl
  | succ f ih =>
    intro p sc b
    unfold errorLoop
    simp only [Parser.setPos] at ih ⊢
    split
    · split
      · rfl
      · rename_i a ha
        exact ih { stack := p.stack, nextToken := sc.Scan.1, pos := p.pos } _ _
    · rfl

theorem PanicMode_setPos (T : Tables) (k : Int) (p : Parser) (sc : Scanner) (fuel : Nat) :
    Parser.PanicMode T (p.setPos k) sc fuel =
      match Parser.PanicMode T p sc fuel with
      | Except.error e => Except.error e
      | Except.ok (r, p1, sc1) => Except.ok (r, p1.setPos k, sc1) := by
  unfold Parser.PanicMode
  simp only [Parser.setPos]
  split
  · rfl
  · split
    · rfl
    · split <;> rfl

theorem Error_setPos (T : Tables) (k : Int) (p : Parser) (err : Option String) (sc : Scanner)
    (fuel : Nat) :
    Parser.Error T (p.setPos k) err sc fuel =
      match Parser.Error T p err sc fuel with
      | Except.error e => Except.error e
      | Except.ok (r, ea, p1, sc1) => Except.ok (r, ea, p1.setPos k, sc1) := by
  unfold Parser.Error
  simp only [Parser.setPos]
  split
  · rfl
  · rename_i syms s1 hpop
    split
    · rfl
    · rename_i row hrow
      split
      · rfl
      · rfl
      · rename_i t ht
        split
        · rfl
        · rename_i a ha
          have h := errorLoop_setPos T k fuel
            { stack := stack.push s1 t (Attrib.err
                { Err := err, ErrorToken := p.nextToken, ErrorSymbols := syms,
                  ExpectedTokens := expectedFrom T.tokId row.actions 0, StackTop := 0 }),
              nextToken := p.nextToken, pos := p.pos }
            sc a.isSome
          simp only [Parser.setPos] at h
          rw [h]
          generalize errorLoop T fuel _ sc a.isSome = res
          cases res with
          | error e => rfl
          | ok r =>
            obtain ⟨b, p1, sc1⟩ := r
            rfl
      · rfl

theorem newError_setPos (T : Tables) (k : Int) (p : Parser) (err : Option String) :
    newError T (p.setPos k) err = newError T p err := rfl

theorem dispatch_setPos (T : Tables) (k : Int) (fuel : Nat) (act : action) (p : Parser)
    (sc : Scanner) (ev : List Event) :
    dispatch T fuel act (p.setPos k) sc ev =
      match dispatch T fuel act p sc ev with
      | Except.error e => Except.error e
      | Except.ok r => Except.ok (r.setPos k) := by
  cases act with
  | accept =>
    simp only [dispatch, Parser.setPos]
    cases p.stack.popN 1 with
    | none => rfl
    | some r =>
      obtain ⟨popped, s1⟩ := r
      simp only
      cases popped[0]? with
      | none => rfl
      | some res => rfl
  | shift t => rfl
  | reduce i =>
    simp only [dispatch, Parser.setPos]
    cases idx? T.productionsTable i with
    | none => rfl
    | some prod =>
      simp only
      cases p.stack.popN prod.NumSymbols with
      | none => rfl
      | some r =>
        obtain ⟨popped, s1⟩ := r
        simp only
        cases prod.ReduceFunc popped with
        | error e =>
          simp only
          have h := PanicMode_setPos T k { p with stack := s1 } sc fuel
          simp only [Parser.setPos] at h
          rw [h]
          generalize Parser.PanicMode T { p with stack := s1 } sc fuel = res
          cases res with
          | error e => rfl
          | ok r =>
            obtain ⟨b, p2, sc2⟩ := r
            cases b with
            | false =>
              simp only
              have hn : newError T { stack := p2.stack, nextToken := p2.nextToken, pos := k } none =
                  newError T p2 none := rfl
              rw [hn]
              cases newError T p2 none with
              | none => rfl
              | some e => rfl
            | true => rfl
        | ok attrib =>
          simp only
          cases s1.top with
          | none => rfl
          | some st =>
            simp only
            cases idx? T.gotoTab st with
            | none => rfl
            | some row =>
              simp only
              cases idx? row prod.NTType with
              | none => rfl
              | some g => rfl

theorem recover_setPos (T : Tables) (k : Int) (fuel : Nat) (p : Parser) (sc : Scanner) :
    recover T fuel (p.setPos k) sc =
      match recover T fuel p sc with
      | Except.error e => Except.error e
      | Except.ok r => Except.ok (r.setPos k) := by
  unfold recover
  rw [Error_setPos]
  generalize Parser.Error T p none sc fuel = res
  cases res with
  | error e => rfl
  | ok r =>
    obtain ⟨b, ea, p1, sc1⟩ := r
    cases b with
    | true =>
      simp only [Parser.setPos]
      cases actionAt T p1.stack p1.nextToken.Typ with
      | none => rfl
      | some a =>
        cases a with
        | none => rfl
        | some act => exact dispatch_setPos T k fuel act p1 sc1 _
    | false =>
      simp only
      have h := PanicMode_setPos T k { p1 with nextToken := ea.ErrorToken } sc1 fuel
      simp only [Parser.setPos] at h ⊢
      rw [h]
      generalize Parser.PanicMode T { p1 with nextToken := ea.ErrorToken } sc1 fuel = res2
      cases res2 with
      | error e => rfl
      | ok r2 =>
        obtain ⟨b2, p2, sc2⟩ := r2
        cases b2 with
        | false =>
          simp only
          have hn : newError T { stack := p2.stack, nextToken := p2.nextToken, pos := k } none =
              newError T p2 none := rfl
          rw [hn]
          cases newError T p2 none with
          | none => rfl
          | some e => rfl
        | true =>
          simp only
          cases actionAt T p2.stack p2.nextToken.Typ with
          | none => rfl
          | some a =>
            cases a with
            | none => rfl
            | some act => exact dispatch_setPos T k fuel act p2 sc2 _

theorem step_setPos (T : Tables) (k : Int) (fuel : Nat) (p : Parser) (sc : Scanner) :
    step T fuel (p.setPos k) sc =
      match step T fuel p sc with
      | Except.error e => Except.error e
      | Except.ok r => Except.ok (r.setPos k) := by
  unfold step
  simp only [Parser.setPos]
  cases actionAt T p.stack p.nextToken.Typ with
  | none => rfl
  | some a =>
    cases a with
    | none => exact recover_setPos T k fuel p sc
    | some act => exact dispatch_setPos T k fuel act p sc _

theorem parseLoop_setPos (T : Tables) (k : Int) :
    ∀ (fuel : Nat) (p : Parser) (sc : Scanner) (tr : List Event),
      parseLoop T fuel (p.setPos k) sc tr =
        match parseLoop T fuel p sc tr with
        | Except.error e => Except.error e
        | Except.ok out => Except.ok { out with parser := out.parser.setPos k } := by
  intro fuel
  induction fuel with
  | zero => intro p sc tr; rfl
  | succ f ih =>
    intro p sc tr
    unfold parseLoop
    rw [step_setPos]
    generalize step T f p sc = res
    cases res with
    | error e => rfl
    | ok r =>
      cases r with
      | next p1 sc1 ev => exact ih p1 sc1 _
      | done res err p1 sc1 ev => rfl

/-- C13.  Sequential reuse: for every tables, scanner and fuel, `Parse` started
from an arbitrary parser (any stack, any lookahead, any `pos`) returns what
`Parse` started from the parser of `NewParser` returns, be it a pair
`(res, err)`, an abort or the exhaustion of the fuel. -/
theorem parse_sequential_reuse (T : Tables) (p : Parser) (sc : Scanner) (fuel : Nat) :
    Parser.Parse T p sc fuel = Parser.Parse T NewParser sc fuel := by
  have h1 : (parseInit p sc).1 = ((parseInit NewParser sc).1).setPos p.pos := rfl
  have h2 : (parseInit p sc).2 = (parseInit NewParser sc).2 := rfl
  unfold Parser.Parse Parser.ParseRun
  rw [h1, h2, parseLoop_setPos]
  generalize parseLoop T fuel (parseInit NewParser sc).1 (parseInit NewParser sc).2 [] = res
  cases res with
  | error e => rfl
  | ok out => rfl

/-! ## Termination of the discard loops -/

theorem errorLoop_returns (T : Tables) (row : actionRow) (toks : Nat → Token) :
    ∀ (k extra : Nat) (p : Parser) (pos : Nat) (b : Bool),
      topRow T p.stack = some row →
      (∀ j, j ≤ k → (idx? row.actions (toks (pos + j)).Typ).isSome = true) →
      (toks (pos + k)).Typ = T.EOF →
      ∃ r, errorLoop T (k + 2 + extra) p { toks := toks, pos := pos } b = Except.ok r := by
  intro k
  induction k with
  | zero =>
    intro extra p pos b hrow hin he
    have e : 0 + 2 + extra = (extra + 1) + 1 := by omega
    rw [e]
    unfold errorLoop
    split
    · have h0 := hin 0 (le_refl _)
      obtain ⟨a, ha⟩ := Option.isSome_iff_exists.mp h0
      have hact : actionAt T p.stack (toks pos).Typ = some a := by
        simp only [actionAt, hrow]
        simpa using ha
      simp only [Scanner.Scan, hact]
      unfold errorLoop
      have he0 : (toks pos).Typ = T.EOF := by simpa using he
      simp [he0]
    · exact ⟨_, rfl⟩
  | succ k ih =>
    intro extra p pos b hrow hin he
    have e : k + 1 + 2 + extra = (k + 2 + extra) + 1 := by omega
    rw [e]
    unfold errorLoop
    split
    · have h0 := hin 0 (Nat.zero_le _)
      obtain ⟨a, ha⟩ := Option.isSome_iff_exists.mp h0
      have hact : actionAt T p.stack (toks pos).Typ = some a := by
        simp only [actionAt, hrow]
        simpa using ha
      simp only [Scanner.Scan, hact]
      apply ih
      · exact hrow
      · intro j hj
        have := hin (j + 1) (by omega)
        have e2 : pos + (j + 1) = pos + 1 + j := by omega
        rw [e2] at this
        exact this
      · have e2 : pos + (k + 1) = pos + 1 + k := by omega
        rw [e2] at he
        exact he
    · exact ⟨_, rfl⟩

theorem discard_returns (v : FollowSet) (lit : String) (toks : Nat → Token) :
    ∀ (k extra pos : Nat), (toks (pos + k)).Lit.length = 0 →
      ∃ r, discard v lit (k + 1 + extra) { toks := toks, pos := pos } = Except.ok r := by
  intro k
  induction k with
  | zero =>
    intro extra pos h
    have e : 0 + 1 + extra = extra + 1 := by omega
    rw [e]
    unfold discard
    by_cases hm : lit ∈ v.Terminals
    · exact ⟨_, if_pos hm⟩
    · rw [if_neg hm]
      have h1 : (toks pos).Lit.length = 0 := by simpa using h
      simp only [Scanner.Scan, h1, if_true]
      exact ⟨_, rfl⟩
  | succ k ih =>
    intro extra pos h
    have e : k + 1 + 1 + extra = (k + 1 + extra) + 1 := by omega
    rw [e]
    unfold discard
    by_cases hm : lit ∈ v.Terminals
    · exact ⟨_, if_pos hm⟩
    · rw [if_neg hm]
      by_cases h1 : (toks pos).Lit.length = 0
      · simp only [Scanner.Scan, h1, if_true]
        exact ⟨_, rfl⟩
      · simp only [Scanner.Scan, h1, if_false]
        apply ih
        have e2 : pos + (k + 1) = pos + 1 + k := by omega
        rw [e2] at h
        exact h

theorem discard_never_stops (v : FollowSet) (lit : String) (toks : Nat → Token)
    (hm : lit ∉ v.Terminals) (hne : ∀ i, (toks i).Lit.length ≠ 0) :
    ∀ (fuel pos : Nat), discard v lit fuel { toks := toks, pos := pos } = Except.error Fault.fuel := by
  intro fuel
  induction fuel with
  | zero => intro pos; rfl
  | succ f ih =>
    intro pos
    unfold discard
    rw [if_neg hm]
    simp only [Scanner.Scan, hne pos, if_false]
    exact ih (pos + 1)

/-- C14 (the code at the failing input).  A scanner that returns on every call
an end-of-input token, of type `token.EOF`, whose literal is `"$"`, with the
tables of `S : "a" T "d" ; T : "c"`, after `a` and with lookahead `x`.  The
scanning loop of `Error`, run from that parser, ends after one `Scan`, on the
type of the token.  The discard loop of `PanicMode` (follow set of `T`) never
ends, whatever the fuel: it stops only on an empty literal. -/
theorem panicMode_loops_on_nonempty_eof :
    (∀ i, (scannerEOFDollar.toks i).Typ = (tablesATD reduceNode reduceNode).EOF) ∧
    (∀ n, errorLoop (tablesATD reduceNode reduceNode) (n + 2) (parserAfterA tokX)
        scannerEOFDollar false =
      Except.ok (false, parserAfterA tokEOFDollar,
        { toks := scannerEOFDollar.toks, pos := 1 })) ∧
    ∀ fuel, Parser.PanicMode (tablesATD reduceNode reduceNode) (parserAfterA tokX)
      scannerEOFDollar fuel = Except.error Fault.fuel := by
  refine ⟨fun _ => rfl, ?_, ?_⟩
  · intro n
    simp [errorLoop, scannerEOFDollar, tokX, tokEOFDollar, tablesATD, Scanner.Scan, actionAt,
      topRow, stack.top, idx?, parserAfterA]
  intro fuel
  have hd := discard_never_stops { Nonterminal := "T", Terminals := ["d"] } "x"
    (fun _ => tokEOFDollar) (by decide)
    (fun _ => (by decide : tokEOFDollar.Lit.length ≠ 0)) fuel 0
  simp only [scannerEOFDollar]
  simp [Parser.PanicMode, parserAfterA, unwind, idx?, tablesATD, gotoScan, stack.popN,
    stack.push, tokX, hd]

/-- Termination of the discard loops, each under the test it makes: the
scanning loop of `Error` returns, given enough fuel, for every scanner that after finitely many
tokens returns a token of type `token.EOF` (the types of the tokens it yields
being columns of the ACTION row of the top state); the discard loop of
`PanicMode` returns, given enough fuel, for every scanner that after finitely
many tokens returns a token with an empty literal, as the end-of-input token
of a gocc lexer is. -/
theorem discard_loops_terminate :
    (∀ (T : Tables) (row : actionRow) (toks : Nat → Token) (k extra : Nat) (p : Parser)
        (pos : Nat) (b : Bool),
      topRow T p.stack = some row →
      (∀ j, j ≤ k → (idx? row.actions (toks (pos + j)).Typ).isSome = true) →
      (toks (pos + k)).Typ = T.EOF →
      ∃ r, errorLoop T (k + 2 + extra) p { toks := toks, pos := pos } b = Except.ok r) ∧
    (∀ (v : FollowSet) (lit : String) (toks : Nat → Token) (k extra pos : Nat),
      (toks (pos + k)).Lit.length = 0 →
      ∃ r, discard v lit (k + 1 + extra) { toks := toks, pos := pos } = Except.ok r) :=
  ⟨fun T row toks k extra p pos b h1 h2 h3 => errorLoop_returns T row toks k extra p pos b h1 h2 h3,
   fun v lit toks k extra pos h => discard_returns v lit toks k extra pos h⟩

/-- The two loops on the input of a gocc lexer: the loop of `Error` on the
rest `b $` of the input `a c b $` of Scenario C, and the discard loop of `PanicMode` on the input
`x d $` of a gocc lexer, whose end-of-input token has the empty literal. -/
theorem discard_loops_terminate_witness :
    (∃ r, errorLoop (tablesAEB reduceNode []) 3
      { stack := { state := [0, 2, 3],
                   attrib := [Attrib.nil, Attrib.tok tokA, Attrib.err (errAEB tokC)] },
        nextToken := tokC, pos := 0 }
      { toks := (Scanner.ofList [tokA, tokC, tokB4] tokEOF).toks, pos := 2 } false =
        Except.ok r) ∧
    ∃ r, discard { Nonterminal := "T", Terminals := ["d"] } "x" 3
      { toks := (Scanner.ofList [tokA, tokX, tokD] tokEOF).toks, pos := 2 } = Except.ok r :=
  ⟨discard_loops_terminate.1 (tablesAEB reduceNode [])
      { canRecover := false, actions := [none, none, none, none, some (action.shift 4)] }
      (Scanner.ofList [tokA, tokC, tokB4] tokEOF).toks 1 0
      { stack := { state := [0, 2, 3],
                   attrib := [Attrib.nil, Attrib.tok tokA, Attrib.err (errAEB tokC)] },
        nextToken := tokC, pos := 0 }
      2 false rfl
      (fun j hj => by
        match j, hj with
        | 0, _ => rfl
        | 1, _ => rfl)
      rfl,
   discard_loops_terminate.2 { Nonterminal := "T", Terminals := ["d"] } "x"
    (Scanner.ofList [tokA, tokX, tokD] tokEOF).toks 1 1 2 rfl⟩

/-! ## The reduce pass -/

theorem stack.top_eq (s : stack) : s.top = s.state[s.state.length - 1]? ∨ s.state = [] := by
  by_cases h : s.state.length = 0
  · right
    exact List.length_eq_zero.mp h
  · left
    unfold stack.top idx?
    have e : ((s.state.length : Int) - 1).toNat = s.state.length - 1 := by omega
    rw [if_neg (by omega), e]

/-- C15.  Reduce step: when the action is a reduce on production `i` whose
length `n` is smaller than the depth and whose reduce function succeeds on the
attributes of the `n` topmost frames in push order, one pass of the loop
removes those frames and pushes the frame `(GOTO[s1][NTType], result)`, `s1`
being the state the pop exposes; the lookahead and the scanner are unchanged.
For `n = 0` nothing is popped and the depth grows by one. -/
theorem reduce_step (T : Tables) (fuel : Nat) (p : Parser) (sc : Scanner) (i : Int)
    (prod : ProdTabEntry) (n : Nat) (a : Attrib) (s1 : Int) (row : List Int) (g : Int)
    (hbal : p.stack.balanced)
    (hact : actionAt T p.stack p.nextToken.Typ = some (some (action.reduce i)))
    (hprod : idx? T.productionsTable i = some prod) (hn : prod.NumSymbols = (n : Int))
    (hlt : n < p.stack.state.length)
    (hf : prod.ReduceFunc (p.stack.attrib.drop (p.stack.attrib.length - n)) = Except.ok a)
    (hs : p.stack.state[p.stack.state.length - n - 1]? = some s1)
    (hrow : idx? T.gotoTab s1 = some row) (hg : idx? row prod.NTType = some g) :
    step T fuel p sc =
      Except.ok (StepOut.next
        { p with stack := { state := p.stack.state.take (p.stack.state.length - n) ++ [g],
                            attrib := p.stack.attrib.take (p.stack.attrib.length - n) ++ [a] } }
        sc [Event.reduce i]) ∧
    (p.stack.state.take (p.stack.state.length - n) ++ [g]).length = p.stack.state.length - n + 1 ∧
    (n = 0 → p.stack.state.take (p.stack.state.length - n) ++ [g] = p.stack.state ++ [g]) := by
  refine ⟨?_, ?_, ?_⟩
  · have hpop := stack.popN_eq p.stack n hbal (by omega)
    have htop : ({ state := p.stack.state.take (p.stack.state.length - n),
                   attrib := p.stack.attrib.take (p.stack.attrib.length - n) } : stack).top =
        some s1 := by
      rcases stack.top_eq { state := p.stack.state.take (p.stack.state.length - n),
                            attrib := p.stack.attrib.take (p.stack.attrib.length - n) } with h | h
      · rw [h]
        simp only [List.length_take]
        have e : min (p.stack.state.length - n) p.stack.state.length - 1 =
            p.stack.state.length - n - 1 := by omega
        rw [e, List.getElem?_take_of_lt (by omega)]
        exact hs
      · have := congrArg List.length h
        simp only [List.length_take, List.length_nil] at this
        omega
    unfold step
    simp only [hact]
    unfold dispatch
    simp only [hprod, hn, hpop, hf, htop, hrow, hg, stack.push, List.nil_append]
  · simp only [List.length_append, List.length_take, List.length_cons, List.length_nil]
    omega
  · intro h0
    subst h0
    simp

/-- Witness of C15: the reduce of `S : a b` in the run of Scenario A. -/
theorem reduce_step_witness :
    step (tablesAB reduceNode followsAB) 0
        { stack := { state := [0, 2, 3],
                     attrib := [Attrib.nil, Attrib.tok tokA, Attrib.tok tokB] },
          nextToken := tokEOF, pos := 0 }
        (Scanner.ofList [] tokEOF) =
      Except.ok (StepOut.next
        { stack := { state := [0, 1],
                     attrib := [Attrib.nil, Attrib.node "S" [Attrib.tok tokA, Attrib.tok tokB]] },
          nextToken := tokEOF, pos := 0 }
        (Scanner.ofList [] tokEOF) [Event.reduce 1]) :=
  (reduce_step (tablesAB reduceNode followsAB) 0
    { stack := { state := [0, 2, 3],
                 attrib := [Attrib.nil, Attrib.tok tokA, Attrib.tok tokB] },
      nextToken := tokEOF, pos := 0 }
    (Scanner.ofList [] tokEOF) 1
    { Id := "S", NTType := 1, NumSymbols := 2, ReduceFunc := reduceNode } 2
    (Attrib.node "S" [Attrib.tok tokA, Attrib.tok tokB]) 0 [-1, 1] 1
    rfl rfl rfl rfl (by decide) rfl rfl rfl rfl).1

/-! ## Popping the non-recovery states -/

theorem flagged_row (T : Tables) (st : Int) (h : flagged T st = true) :
    ∃ row, idx? T.actionTab st = some row ∧ row.canRecover = true := by
  unfold flagged at h
  split at h
  · exact absurd h (by simp)
  · rename_i row hrow
    exact ⟨row, hrow, h⟩

theorem unflagged_row (T : Tables) (st : Int) (h : unflagged T st = true) :
    ∃ row, idx? T.actionTab st = some row ∧ row.canRecover = false := by
  unfold unflagged at h
  split at h
  · exact absurd h (by simp)
  · rename_i row hrow
    exact ⟨row, hrow, by simpa using h⟩

theorem stack.peek_eq (s : stack) (j : Nat) : s.peek (j : Int) = s.state[j]? := by
  unfold stack.peek idx?
  rw [if_neg (by omega)]
  simp

theorem recoveryLoop_found (T : Tables) (s : stack) (r : Nat) (str : Int)
    (hr : s.state[r]? = some str) (hfl : flagged T str = true) :
    ∀ (n : Nat) (c : Bool), r ≤ n → n < s.state.length →
      (∀ j st, r < j → j < n → s.state[j]? = some st → unflagged T st = true) →
      c = (if n = r then true else false) →
      recoveryLoop T s n c = some ((r : Int), true) := by
  intro n
  induction n with
  | zero =>
    intro c hrn _ _ hc
    have : r = 0 := by omega
    subst this
    simp at hc
    subst hc
    rfl
  | succ m ih =>
    intro c hrn hlen hun hc
    by_cases hnr : m + 1 = r
    · rw [if_pos hnr] at hc
      subst hc
      subst hnr
      unfold recoveryLoop
      simp
    · rw [if_neg hnr] at hc
      subst hc
      unfold recoveryLoop
      simp only [Bool.false_eq_true, if_false]
      rw [stack.peek_eq]
      have hm : m < s.state.length := by omega
      rw [List.getElem?_eq_getElem hm]
      by_cases hmr : m = r
      · subst hmr
        have hst : s.state[m] = str := by
          rw [List.getElem?_eq_getElem hm] at hr
          exact Option.some.inj hr
        obtain ⟨row, hrow, hcr⟩ := flagged_row T str hfl
        simp only [hst, hrow]
        exact ih _ (le_refl _) hm (fun j st h1 h2 _ => by omega) (by simp [hcr])
      · obtain ⟨row, hrow, hcr⟩ := unflagged_row T _
          (hun m _ (by omega) (by omega) (List.getElem?_eq_getElem hm))
        simp only [hrow]
        exact ih _ (by omega) hm (fun j st h1 h2 h3 => hun j st h1 (by omega) h3)
          (by simp [hcr, hmr])

theorem recoveryLoop_none (T : Tables) (s : stack) :
    ∀ (n : Nat), n < s.state.length →
      (∀ j st, j < n → s.state[j]? = some st → unflagged T st = true) →
      recoveryLoop T s n false = some (0, false) := by
  intro n
  induction n with
  | zero => intro _ _; rfl
  | succ m ih =>
    intro hlen hun
    unfold recoveryLoop
    simp only [Bool.false_eq_true, if_false]
    rw [stack.peek_eq]
    have hm : m < s.state.length := by omega
    rw [List.getElem?_eq_getElem hm]
    obtain ⟨row, hrow, hcr⟩ := unflagged_row T _
      (hun m _ (by omega) (List.getElem?_eq_getElem hm))
    simp only [hrow, hcr]
    exact ih hm (fun j st h1 h2 => hun j st (by omega) h2)

theorem topRow_eq (T : Tables) (s : stack) (st : Int)
    (h : s.state[s.state.length - 1]? = some st) : topRow T s = idx? T.actionTab st := by
  unfold topRow
  rcases stack.top_eq s with ht | ht
  · rw [ht, h]
  · rw [ht] at h
    simp at h

/-- C16.  Popping non-recovery states, on a stack with as many states as
attributes.  If the state at index `r` is flagged can-recover and the states
above it have an ACTION row that is not flagged, `firstRecoveryState` returns
`(r, true)` and `popNonRecoveryStates` removes the frames above `r` and
returns their attributes bottom to top.  If the stack is not empty and every
state on it has an ACTION row that is not flagged, `firstRecoveryState`
returns `(0, false)` and `popNonRecoveryStates` returns the empty list and
leaves the stack as it is. -/
theorem popNonRecoveryStates_spec (T : Tables) (s : stack) (hbal : s.balanced) :
    (∀ (r : Nat) (str : Int), s.state[r]? = some str → flagged T str = true →
      (∀ j st, r < j → s.state[j]? = some st → unflagged T st = true) →
      firstRecoveryState T s = some ((r : Int), true) ∧
      popNonRecoveryStates T s =
        some (s.attrib.drop (r + 1),
          { state := s.state.take (r + 1), attrib := s.attrib.take (r + 1) })) ∧
    (s.state ≠ [] → (∀ (j : Nat) (st : Int), s.state[j]? = some st → unflagged T st = true) →
      firstRecoveryState T s = some (0, false) ∧ popNonRecoveryStates T s = some ([], s)) := by
  have hb : s.state.length = s.attrib.length := hbal
  constructor
  · intro r str hr hfl hun
    have hrl : r < s.state.length := (List.getElem?_eq_some_iff.mp hr).1
    have htopidx : s.topIndex.toNat = s.state.length - 1 := by
      unfold stack.topIndex
      omega
    obtain ⟨top, hlast⟩ : ∃ top, s.state[s.state.length - 1]? = some top :=
      ⟨_, List.getElem?_eq_getElem (by omega)⟩
    have hfirst : firstRecoveryState T s = some ((r : Int), true) := by
      unfold firstRecoveryState
      rw [topRow_eq T s _ hlast, htopidx]
      by_cases htr : s.state.length - 1 = r
      · have hst : top = str := by
          have h2 := hlast
          rw [htr, hr] at h2
          exact (Option.some.inj h2).symm
        obtain ⟨row, hrow, hcr⟩ := flagged_row T str hfl
        simp only [hst, hrow]
        exact recoveryLoop_found T s r str hr hfl _ _ (by omega) (by omega)
          (fun j st h1 h2 _ => by omega) (by simp [htr, hcr])
      · obtain ⟨row, hrow, hcr⟩ := unflagged_row T _ (hun _ _ (by omega) hlast)
        simp only [hrow]
        exact recoveryLoop_found T s r str hr hfl _ _ (by omega) (by omega)
          (fun j st h1 _ h3 => hun j st h1 h3) (by simp [htr, hcr])
    refine ⟨hfirst, ?_⟩
    unfold popNonRecoveryStates
    simp only [hfirst]
    have e : s.topIndex - (r : Int) = ((s.state.length - 1 - r : Nat) : Int) := by
      unfold stack.topIndex
      omega
    rw [e, stack.popN_eq s _ hbal (by omega)]
    have e1 : s.state.length - (s.state.length - 1 - r) = r + 1 := by omega
    have e2 : s.attrib.length - (s.state.length - 1 - r) = r + 1 := by omega
    rw [e1, e2]
  · intro hne hun
    have hpos : 0 < s.state.length := List.length_pos.mpr hne
    have htopidx : s.topIndex.toNat = s.state.length - 1 := by
      unfold stack.topIndex
      omega
    obtain ⟨top, hlast⟩ : ∃ top, s.state[s.state.length - 1]? = some top :=
      ⟨_, List.getElem?_eq_getElem (by omega)⟩
    have hfirst : firstRecoveryState T s = some (0, false) := by
      unfold firstRecoveryState
      rw [topRow_eq T s _ hlast, htopidx]
      obtain ⟨row, hrow, hcr⟩ := unflagged_row T _ (hun _ _ hlast)
      simp only [hrow, hcr]
      exact recoveryLoop_none T s _ (by omega) (fun j st _ h2 => hun j st h2)
    refine ⟨hfirst, ?_⟩
    unfold popNonRecoveryStates
    simp only [hfirst]

/-- Witness of C16: the stack `0, 2, 3` on the tables of `S : "a" error "b"`,
in which state `2` alone is flagged. -/
theorem popNonRecoveryStates_spec_witness :
    firstRecoveryState (tablesAEB reduceNode [])
        { state := [0, 2, 3], attrib := [Attrib.nil, Attrib.tok tokA, Attrib.tok tokE3] } =
      some (1, true) ∧
    popNonRecoveryStates (tablesAEB reduceNode [])
        { state := [0, 2, 3], attrib := [Attrib.nil, Attrib.tok tokA, Attrib.tok tokE3] } =
      some ([Attrib.tok tokE3], { state := [0, 2], attrib := [Attrib.nil, Attrib.tok tokA] }) :=
  (popNonRecoveryStates_spec (tablesAEB reduceNode [])
    { state := [0, 2, 3], attrib := [Attrib.nil, Attrib.tok tokA, Attrib.tok tokE3] } rfl).1
    1 2 rfl (by decide)
    (fun j st hj hs => by
      match j, hj, hs with
      | 2, _, hs => simp at hs; subst hs; decide
      | n + 3, _, hs => simp at hs)

/-! ## Local recovery -/

/-- C17.  Local recovery fails immediately without an error action: if the top
state reached after popping the non-recovery states has a `nil` ACTION for the
terminal `error`, `Error` returns `recovered = false` for every fuel, pulls no
token, leaves the lookahead as it was, and the stack is the one
`popNonRecoveryStates` left: no frame is pushed. -/
theorem error_fails_without_error_action (T : Tables) (p : Parser) (err : Option String)
    (sc : Scanner) (fuel : Nat) (syms : List Attrib) (s1 : stack) (row : actionRow)
    (hpop : popNonRecoveryStates T p.stack = some (syms, s1))
    (hrow : topRow T s1 = some row)
    (herr : idx? row.actions T.errorType = some none) :
    ∃ ea : ParseError Attrib,
      Parser.Error T p err sc fuel = Except.ok (false, ea, { p with stack := s1 }, sc) ∧
      ea.ErrorToken = p.nextToken ∧ ea.ErrorSymbols = syms := by
  refine ⟨{ Err := err, ErrorToken := p.nextToken, ErrorSymbols := syms,
            ExpectedTokens := expectedFrom T.tokId row.actions 0, StackTop := 0 }, ?_, rfl, rfl⟩
  unfold Parser.Error
  simp only [hpop, hrow, herr]

/-- Witness of C17: the tables of `S : "a" "b"`, which have no `error`
terminal, after `a` with lookahead `c`. -/
theorem error_fails_without_error_action_witness :
    ∃ ea : ParseError Attrib,
      Parser.Error (tablesAB reduceNode followsAB) (parserAfterA tokC) none
          (Scanner.ofList [] tokEOF) 0 =
        Except.ok (false, ea, parserAfterA tokC, Scanner.ofList [] tokEOF) ∧
      ea.ErrorToken = tokC ∧ ea.ErrorSymbols = [] :=
  error_fails_without_error_action (tablesAB reduceNode followsAB) (parserAfterA tokC) none
    (Scanner.ofList [] tokEOF) 0 [] (parserAfterA tokC).stack
    { canRecover := false, actions := [none, none, none, some (action.shift 3)] }
    (by simp [popNonRecoveryStates, firstRecoveryState, topRow, stack.top, idx?, tablesAB,
      stack.topIndex, recoveryLoop, stack.peek, parserAfterA])
    rfl rfl

theorem errorLoop_post (T : Tables) :
    ∀ (fuel : Nat) (p : Parser) (sc : Scanner) (b r : Bool) (p1 : Parser) (sc1 : Scanner),
      (b = true → ∃ a, actionAt T p.stack p.nextToken.Typ = some (some a)) →
      errorLoop T fuel p sc b = Except.ok (r, p1, sc1) →
      p1.stack = p.stack ∧
      (r = true → ∃ a, actionAt T p1.stack p1.nextToken.Typ = some (some a)) ∧
      (r = false → p1.nextToken.Typ = T.EOF) := by
  intro fuel
  induction fuel with
  | zero => intro p sc b r p1 sc1 _ h; simp [errorLoop] at h
  | succ f ih =>
    intro p sc b r p1 sc1 hb h
    unfold errorLoop at h
    split at h
    · rename_i hc
      simp only at h
      split at h
      · exact absurd h (by simp)
      · rename_i a ha
        have hb2 : (if a.isSome = true then true else b) = true →
            ∃ a1, actionAt T p.stack (sc.Scan).1.Typ = some (some a1) := by
          intro h1
          cases a with
          | none =>
            simp at h1
            subst h1
            simp at hc
          | some a1 => exact ⟨a1, ha⟩
        exact ih { p with nextToken := (sc.Scan).1 } _ _ _ _ _ hb2 h
    · rename_i hc
      simp only [Except.ok.injEq, Prod.mk.injEq] at h
      obtain ⟨h1, h2, -⟩ := h
      subst h1 h2
      refine ⟨rfl, hb, ?_⟩
      intro hf
      subst hf
      simpa using hc

/-- C18.  Local recovery postcondition: when the top state reached after
popping the non-recovery states has a shift to `t` on the terminal `error` and
`Error` returns, the stack is the popped stack with the one new frame
`(t, error record)` on top, the record holding the offending token, the
popped attributes and the expected tokens of the state below; if `Error`
returns `recovered = true`, the ACTION for the resulting lookahead at the new
top is defined; if it returns `recovered = false`, the resulting lookahead has
the type `token.EOF`. -/
theorem error_postcondition (T : Tables) (p : Parser) (err : Option String) (sc : Scanner)
    (fuel : Nat) (syms : List Attrib) (s1 : stack) (row : actionRow) (t : Int)
    (r : Bool) (ea : ParseError Attrib) (p1 : Parser) (sc1 : Scanner)
    (hpop : popNonRecoveryStates T p.stack = some (syms, s1))
    (hrow : topRow T s1 = some row)
    (herr : idx? row.actions T.errorType = some (some (action.shift t)))
    (h : Parser.Error T p err sc fuel = Except.ok (r, ea, p1, sc1)) :
    ea = { Err := err, ErrorToken := p.nextToken, ErrorSymbols := syms,
           ExpectedTokens := expectedFrom T.tokId row.actions 0, StackTop := 0 } ∧
    p1.stack = s1.push t (Attrib.err ea) ∧
    (r = true → ∃ a, actionAt T p1.stack p1.nextToken.Typ = some (some a)) ∧
    (r = false → p1.nextToken.Typ = T.EOF) := by
  unfold Parser.Error at h
  simp only [hpop, hrow, herr] at h
  split at h
  · exact absurd h (by simp)
  · rename_i a ha
    split at h
    · exact absurd h (by simp)
    · rename_i rec p3 sc3 hloop
      simp only [Except.ok.injEq, Prod.mk.injEq] at h
      obtain ⟨h1, h2, h3, -⟩ := h
      subst h1 h2 h3
      have hpost := errorLoop_post T fuel _ sc a.isSome rec p3 sc3 (by
        intro hs
        obtain ⟨a1, rfl⟩ := Option.isSome_iff_exists.mp hs
        exact ⟨a1, ha⟩) hloop
      exact ⟨rfl, hpost.1, hpost.2.1, hpost.2.2⟩

/-- Witness of C18: `Error` in Scenario C, on the input `a c b $`: it returns
`recovered = true` with lookahead `b`, for which state `3` has an action. -/
theorem error_postcondition_witness :
    ({ state := [0, 2, 3],
       attrib := [Attrib.nil, Attrib.tok tokA, Attrib.err (errAEB tokC)] } : stack) =
      stack.push { state := [0, 2], attrib := [Attrib.nil, Attrib.tok tokA] } 3
        (Attrib.err (errAEB tokC)) ∧
    ∃ a, actionAt (tablesAEB reduceNode [])
      { state := [0, 2, 3], attrib := [Attrib.nil, Attrib.tok tokA, Attrib.err (errAEB tokC)] }
      tokB4.Typ = some (some a) := by
  have h := error_postcondition (tablesAEB reduceNode [])
    { stack := { state := [0, 2], attrib := [Attrib.nil, Attrib.tok tokA] },
      nextToken := tokC, pos := 0 }
    none { toks := (Scanner.ofList [tokA, tokC, tokB4] tokEOF).toks, pos := 2 } 2
    [] { state := [0, 2], attrib := [Attrib.nil, Attrib.tok tokA] }
    { canRecover := true, actions := [none, none, none, some (action.shift 3), none] } 3
    true (errAEB tokC)
    { stack := { state := [0, 2, 3],
                 attrib := [Attrib.nil, Attrib.tok tokA, Attrib.err (errAEB tokC)] },
      nextToken := tokB4, pos := 0 }
    { toks := (Scanner.ofList [tokA, tokC, tokB4] tokEOF).toks, pos := 3 }
    (by simp [popNonRecoveryStates, firstRecoveryState, topRow, stack.top, idx?, tablesAEB,
      stack.topIndex, recoveryLoop, stack.popN])
    rfl rfl
    (Error_AEB reduceNode [] (Scanner.ofList [tokA, tokC, tokB4] tokEOF).toks (Attrib.tok tokA) 0
      0 0
      (fun j h1 h2 => by
        have : j = 1 := by omega
        subst this
        simp [skippedAEB, Scanner.ofList, tokC])
      (by decide) rfl)
  exact ⟨h.2.1, h.2.2.1 rfl⟩

/-! ## What panic mode pushes and returns -/

/-- C19 (the code at the failing input).  With the tables of
`S : "a" T "d" ; T : "c"`, after `a`, `PanicMode` finds state `2` with GOTO
defined on `T`, the entry being `gotoTab[2][T] = 3`.  The frame it pushes
holds state `2`, the state found, not the state `3` of the GOTO entry. -/
theorem panicMode_pushes_found_state :
    (∃ s1, unwind (tablesATD reduceNode reduceNode) (parserAfterA tokX).stack 2 =
        some (s1, 2, "T") ∧ s1.top = some 2) ∧
    ntColumn (tablesATD reduceNode reduceNode) "T" = some 2 ∧
    idx? (tablesATD reduceNode reduceNode).gotoTab 2 = some [-1, -1, 3] ∧
    idx? [-1, -1, 3] 2 = some 3 := by
  refine ⟨⟨{ state := [0, 2, 2], attrib := [Attrib.nil, Attrib.tok tokA, Attrib.sym "T"] },
    ?_, ?_⟩, ?_, ?_, ?_⟩
  · simp [parserAfterA, unwind, idx?, tablesATD, gotoScan, stack.popN, stack.push]
  · simp [stack.top, idx?]
  · simp [ntColumn, tablesATD]
  · simp [idx?, tablesATD]
  · simp [idx?]

theorem discard_verdict (v : FollowSet) (lit : String) :
    ∀ (fuel : Nat) (sc : Scanner) (b : Bool) (sc1 : Scanner),
      discard v lit fuel sc = Except.ok (b, sc1) → b = decide (lit ∈ v.Terminals) := by
  intro fuel
  induction fuel with
  | zero => intro sc b sc1 h; simp [discard] at h
  | succ f ih =>
    intro sc b sc1 h
    unfold discard at h
    by_cases hm : lit ∈ v.Terminals
    · rw [if_pos hm] at h
      simp only [Except.ok.injEq, Prod.mk.injEq] at h
      rw [← h.1]
      simp [hm]
    · rw [if_neg hm] at h
      simp only at h
      split at h
      · simp only [Except.ok.injEq, Prod.mk.injEq] at h
        rw [← h.1]
        simp [hm]
      · exact ih _ _ _ h

/-- C20.  Panic-mode result depends only on the entry lookahead: when the
stack loop of `PanicMode` has recorded the symbol `A` and left the stack `s1`,
every call that returns leaves the lookahead as it was and returns `true`
exactly when the first follow set named `A` exists and holds the literal of
that lookahead, whatever the scanner yields; and the call returns, given
enough fuel, for every scanner that eventually yields a token with an empty
literal. -/
theorem panicMode_verdict (T : Tables) (p : Parser) (s1 : stack) (vs : Int) (A : String)
    (hu : unwind T p.stack p.stack.state.length = some (s1, vs, A)) :
    (∀ (sc : Scanner) (fuel : Nat) (b : Bool) (p1 : Parser) (sc1 : Scanner),
      Parser.PanicMode T p sc fuel = Except.ok (b, p1, sc1) →
      p1.nextToken = p.nextToken ∧ p1.stack = s1 ∧ b = panicVerdict T A p.nextToken.Lit) ∧
    (∀ (toks : Nat → Token) (k extra pos : Nat), (toks (pos + k)).Lit.length = 0 →
      ∃ sc1, Parser.PanicMode T p { toks := toks, pos := pos } (k + 1 + extra) =
        Except.ok (panicVerdict T A p.nextToken.Lit, { p with stack := s1 }, sc1)) := by
  constructor
  · intro sc fuel b p1 sc1 h
    unfold Parser.PanicMode at h
    simp only [hu] at h
    unfold panicVerdict
    split at h
    · rename_i hfind
      simp only [Except.ok.injEq, Prod.mk.injEq] at h
      obtain ⟨h1, h2, -⟩ := h
      subst h1 h2
      exact ⟨rfl, rfl, rfl⟩
    · rename_i v hfind
      split at h
      · exact absurd h (by simp)
      · rename_i resume sc2 hd
        simp only [Except.ok.injEq, Prod.mk.injEq] at h
        obtain ⟨h1, h2, -⟩ := h
        subst h1 h2
        exact ⟨rfl, rfl, discard_verdict v _ fuel sc _ _ hd⟩
  · intro toks k extra pos hk
    unfold Parser.PanicMode panicVerdict
    simp only [hu]
    cases hfind : T.followsets.find? (fun v => v.Nonterminal == A) with
    | none => exact ⟨_, rfl⟩
    | some v =>
      obtain ⟨⟨b, sc1⟩, hd⟩ := discard_returns v p.nextToken.Lit toks k extra pos hk
      have hb := discard_verdict v _ _ _ _ _ hd
      simp only [hd]
      subst hb
      exact ⟨sc1, rfl⟩

/-- Witness of C20: the tables of `S : "a" T "d" ; T : "c"` after `a` with
lookahead `x`, where the verdict is `false` although `d` follows. -/
theorem panicMode_verdict_witness :
    ∃ sc1, Parser.PanicMode (tablesATD reduceNode reduceNode) (parserAfterA tokX)
        { toks := (Scanner.ofList [tokA, tokX, tokD] tokEOF).toks, pos := 2 } 2 =
      Except.ok (false,
        { stack := { state := [0, 2, 2],
                     attrib := [Attrib.nil, Attrib.tok tokA, Attrib.sym "T"] },
          nextToken := tokX, pos := 0 }, sc1) :=
  (panicMode_verdict (tablesATD reduceNode reduceNode) (parserAfterA tokX)
    { state := [0, 2, 2], attrib := [Attrib.nil, Attrib.tok tokA, Attrib.sym "T"] } 2 "T"
    (by simp [parserAfterA, unwind, idx?, tablesATD, gotoScan, stack.popN, stack.push])).2
    (Scanner.ofList [tokA, tokX, tokD] tokEOF).toks 1 0 2 rfl

end Gocc
